import Mathlib

/-!
Verification development for the multi-source market-data service and the
backtesting engine of this repository.

The definitions below are a shallow embedding of the Python sources
src/backend/app/services/multi_source_data.py and
src/backend/app/services/backtesting_engine.py.  Python floats are modelled
as rationals, wall-clock timestamps as rationals counted in seconds, and
exception control flow as Except values.  Each definition carries a note of
the source function it embeds.
-/

/-- Error taxonomy of src/backend/app/utils/data_exceptions.py.  All
subclasses of DataProviderError are modelled as constructors of one sum
type; the provider name and message strings are not needed for the claims
and are dropped. -/
inductive DataErr where
  | network
  | rateLimit
  | auth
  | invalidSymbol
  | emptyData
  | dataValidation
  | providerError
deriving DecidableEq

/-- Which errors the retry wrapper retries: the first except-clause of
retry_with_backoff catches exactly NetworkError and RateLimitError; every
other exception is re-raised immediately (the second clause lists the four
typed non-retryables, the third clause re-raises anything else). -/
def DataErr.retryableErr : DataErr → Bool
  | .network => true
  | .rateLimit => true
  | _ => false

/-- MAX_RETRY_DELAY from multi_source_data.py (seconds). -/
def MAX_RETRY_DELAY : ℚ := 10

/-- Core loop of retry_with_backoff (multi_source_data.py lines 162-198).
Arguments: the wrapped operation as a map from attempt index to outcome,
the backoff cap, the current attempt index, the current delay, and the
number of retries still allowed.  Returns the final outcome, the total
number of invocations of the operation, and the list of sleeps performed
(each sleep is the delay value slept before the next attempt). -/
def retryGo (op : ℕ → Except DataErr α) (cap : ℚ) (attempt : ℕ) (delay : ℚ) :
    ℕ → Except DataErr α × ℕ × List ℚ
  | 0 =>
    -- last attempt: a retryable error falls out of the loop and the saved
    -- last_exception is re-raised; a non-retryable error is raised directly
    match op attempt with
    | .ok v => (.ok v, attempt + 1, [])
    | .error e => (.error e, attempt + 1, [])
  | r + 1 =>
    match op attempt with
    | .ok v => (.ok v, attempt + 1, [])
    | .error e =>
      if e.retryableErr then
        -- sleep current delay, then delay = min(delay * 2, MAX_RETRY_DELAY)
        let rest := retryGo op cap (attempt + 1) (min (delay * 2) cap) r
        (rest.1, rest.2.1, delay :: rest.2.2)
      else
        (.error e, attempt + 1, [])

/-- retry_with_backoff(max_retries, initial_delay) applied to an operation:
up to max_retries + 1 attempts, exponential backoff capped at
MAX_RETRY_DELAY. -/
def retry_with_backoff (max_retries : ℕ) (initial_delay : ℚ)
    (op : ℕ → Except DataErr α) : Except DataErr α × ℕ × List ℚ :=
  retryGo op MAX_RETRY_DELAY 0 initial_delay max_retries

/-- The backoff sleep sequence predicted by the spec: starting from the
initial delay, each subsequent delay is min(delay * 2, cap). -/
def backoffDelays (d cap : ℚ) : ℕ → List ℚ
  | 0 => []
  | n + 1 => d :: backoffDelays (min (d * 2) cap) cap n

/-- CircuitBreaker state record (multi_source_data.py lines 62-102).  The
state field is the literal Python string: one of "closed", "open",
"half-open". -/
structure CircuitBreaker where
  threshold : ℕ
  timeout : ℚ
  failure_count : ℕ
  last_failure_time : Option ℚ
  state : String
deriving DecidableEq

/-- CircuitBreaker.__init__ with explicit threshold and timeout. -/
def CircuitBreaker.init (threshold : ℕ) (timeout : ℚ) : CircuitBreaker :=
  { threshold := threshold, timeout := timeout, failure_count := 0,
    last_failure_time := none, state := "closed" }

/-- CircuitBreaker.call_failed, with the wall clock passed explicitly. -/
def CircuitBreaker.call_failed (cb : CircuitBreaker) (now : ℚ) : CircuitBreaker :=
  let fc := cb.failure_count + 1
  { cb with
    failure_count := fc
    last_failure_time := some now
    state := if cb.threshold ≤ fc then "open" else cb.state }

/-- CircuitBreaker.call_succeeded. -/
def CircuitBreaker.call_succeeded (cb : CircuitBreaker) : CircuitBreaker :=
  { cb with failure_count := 0, state := "closed" }

/-- CircuitBreaker.can_attempt.  The Python method both returns a boolean
and mutates self (open flips to half-open once the timeout has elapsed); the
model returns the flag together with the updated breaker. -/
def CircuitBreaker.can_attempt (cb : CircuitBreaker) (now : ℚ) :
    Bool × CircuitBreaker :=
  if cb.state = "closed" then (true, cb)
  else if cb.state = "open" then
    match cb.last_failure_time with
    | some t =>
      if cb.timeout < now - t then (true, { cb with state := "half-open" })
      else (false, cb)
    | none => (false, cb)
  else (true, cb)

/-- A bar as handed to validate_historical_data: a dict that may lack keys
or hold None values, so every field is an Option.  A missing key and a None
value behave identically in the validator and are both modelled as none. -/
structure RawBar where
  open_ : Option ℚ
  high : Option ℚ
  low : Option ℚ
  close : Option ℚ
  volume : Option ℚ
deriving DecidableEq

/-- The missing_fields check of validate_historical_data: true when any of
the five required OHLCV fields is absent or None. -/
def RawBar.missingFields (b : RawBar) : Bool :=
  b.open_.isNone || b.high.isNone || b.low.isNone || b.close.isNone || b.volume.isNone

/-- Per-bar loop of validate_historical_data (lines 134-157): missing
fields, then the OHLC ordering invariant, then strict positivity, in source
order, failing fast with DataValidationError. -/
def validateBarsGo : List RawBar → Except DataErr Unit
  | [] => .ok ()
  | b :: rest =>
    if b.missingFields then .error .dataValidation
    else
      let o := b.open_.getD 0
      let h := b.high.getD 0
      let l := b.low.getD 0
      let c := b.close.getD 0
      if ¬ (l ≤ o ∧ o ≤ h ∧ l ≤ c ∧ c ≤ h) then .error .dataValidation
      else if o ≤ 0 ∨ h ≤ 0 ∨ l ≤ 0 ∨ c ≤ 0 then .error .dataValidation
      else validateBarsGo rest

/-- validate_historical_data(data, symbol, min_bars) (lines 126-159).  An
empty series and an under-minimum series both raise EmptyDataError, then
each bar is checked in order. -/
def validate_historical_data (data : List RawBar) (min_bars : ℕ) :
    Except DataErr Unit :=
  if data = [] then .error .emptyData
  else if data.length < min_bars then .error .emptyData
  else validateBarsGo data

/-- Spec-side notion of a well-formed bar: all five OHLCV fields present,
the ordering invariant low ≤ open ≤ high and low ≤ close ≤ high, and
strictly positive open/high/low/close. -/
def RawBar.WellFormed (b : RawBar) : Prop :=
  ∃ o h l c v, b.open_ = some o ∧ b.high = some h ∧ b.low = some l ∧
    b.close = some c ∧ b.volume = some v ∧
    l ≤ o ∧ o ≤ h ∧ l ≤ c ∧ c ≤ h ∧ 0 < o ∧ 0 < h ∧ 0 < l ∧ 0 < c

/-- Boolean form of RawBar.WellFormed, for evaluation. -/
def RawBar.wellFormedB (b : RawBar) : Bool :=
  match b.open_, b.high, b.low, b.close, b.volume with
  | some o, some h, some l, some c, some _ =>
    decide (l ≤ o) && decide (o ≤ h) && decide (l ≤ c) && decide (c ≤ h) &&
    decide (0 < o) && decide (0 < h) && decide (0 < l) && decide (0 < c)
  | _, _, _, _, _ => false

theorem RawBar.wellFormedB_iff (b : RawBar) :
    b.wellFormedB = true ↔ b.WellFormed := by
  unfold RawBar.wellFormedB RawBar.WellFormed
  rcases b with ⟨o, h, l, c, v⟩
  cases o <;> cases h <;> cases l <;> cases c <;> cases v
  all_goals simp
  all_goals tauto

instance (b : RawBar) : Decidable b.WellFormed :=
  decidable_of_iff (b.wellFormedB = true) (RawBar.wellFormedB_iff b)

/-- The five provider identities keyed in MultiSourceDataService
provider_stats and circuit_breakers. -/
inductive Provider where
  | alpaca
  | alpha_vantage
  | polygon
  | coinbase
  | yfinance
deriving DecidableEq

/-- One entry of MultiSourceDataService.provider_stats (lines 215-256).
Timestamps are rationals; the last error message is modelled by the error
kind that produced it. -/
structure ProviderStats where
  last_success : Option ℚ := none
  last_error : Option ℚ := none
  last_error_msg : Option DataErr := none
  request_count : ℕ := 0
  success_count : ℕ := 0
  error_count : ℕ := 0
deriving DecidableEq

/-- The mutable provider-health state owned by one MultiSourceDataService
instance: per-provider stats and circuit breakers. -/
structure ServiceState where
  provider_stats : Provider → ProviderStats
  circuit_breakers : Provider → CircuitBreaker

/-- Fresh state as built by MultiSourceDataService.__init__: zeroed stats
and default breakers (threshold CIRCUIT_BREAKER_THRESHOLD = 5, timeout
CIRCUIT_BREAKER_TIMEOUT = 300). -/
def ServiceState.init : ServiceState :=
  { provider_stats := fun _ => {}
    circuit_breakers := fun _ => CircuitBreaker.init 5 300 }

/-- Update the stats of one provider. -/
def ServiceState.updStats (st : ServiceState) (p : Provider)
    (f : ProviderStats → ProviderStats) : ServiceState :=
  { st with provider_stats :=
      Function.update st.provider_stats p (f (st.provider_stats p)) }

/-- Update the breaker of one provider. -/
def ServiceState.updBreaker (st : ServiceState) (p : Provider)
    (f : CircuitBreaker → CircuitBreaker) : ServiceState :=
  { st with circuit_breakers :=
      Function.update st.circuit_breakers p (f (st.circuit_breakers p)) }

/-- _record_success (lines 371-375): stamp last_success, bump
success_count, and reset the breaker. -/
def ServiceState.record_success (st : ServiceState) (p : Provider) (now : ℚ) :
    ServiceState :=
  (st.updStats p fun s =>
      { s with last_success := some now, success_count := s.success_count + 1 }
    ).updBreaker p (·.call_succeeded)

/-- _record_failure (lines 377-382): stamp last_error and its message, bump
error_count, and record the failure on the breaker. -/
def ServiceState.record_failure (st : ServiceState) (p : Provider)
    (e : DataErr) (now : ℚ) : ServiceState :=
  (st.updStats p fun s =>
      { s with last_error := some now, last_error_msg := some e,
               error_count := s.error_count + 1 }
    ).updBreaker p (·.call_failed now)

/-- One provider block of _get_stock_price (lines 442-519; the four blocks
are identical up to the provider name).  cfg models membership in
self.providers; fetch models the post-retry adapter call, whose result is
either a raised DataProviderError (generic exceptions are categorized into
one by _categorize_error before being recorded) or an optional price.
A falsy price (None or 0) falls through to the next provider without
recording anything; a truthy price is passed to validate_price_data, which
raises DataValidationError for non-positive prices; a validated price is
recorded as a success and returned. -/
def tryStockProvider (cfg : Provider → Bool)
    (fetch : Provider → Except DataErr (Option ℚ)) (now : ℚ) (p : Provider)
    (st : ServiceState) : Option ℚ × ServiceState :=
  if cfg p then
    let att := (st.circuit_breakers p).can_attempt now
    let st := st.updBreaker p (fun _ => att.2)
    if att.1 then
      let st := st.updStats p fun s =>
        { s with request_count := s.request_count + 1 }
      match fetch p with
      | .error e => (none, st.record_failure p e now)
      | .ok none => (none, st)
      | .ok (some price) =>
        if price ≠ 0 then
          if price ≤ 0 then (none, st.record_failure p .dataValidation now)
          else (some price, st.record_success p now)
        else (none, st)
    else (none, st)
  else (none, st)

/-- The fixed fallback order of _get_stock_price: Alpaca, Polygon, Alpha
Vantage, yfinance. -/
def stockPriceOrder : List Provider :=
  [.alpaca, .polygon, .alpha_vantage, .yfinance]

/-- Fallback chain: try each provider in order, short-circuiting on the
first returned price. -/
def getStockPriceGo (cfg : Provider → Bool)
    (fetch : Provider → Except DataErr (Option ℚ)) (now : ℚ) :
    List Provider → ServiceState → Option ℚ × ServiceState
  | [], st => (none, st)
  | p :: rest, st =>
    match tryStockProvider cfg fetch now p st with
    | (some price, st') => (some price, st')
    | (none, st') => getStockPriceGo cfg fetch now rest st'

/-- _get_stock_price (lines 436-526): the four-provider fallback chain;
returns None when every provider is skipped or fails. -/
def get_stock_price (cfg : Provider → Bool)
    (fetch : Provider → Except DataErr (Option ℚ)) (now : ℚ)
    (st : ServiceState) : Option ℚ × ServiceState :=
  getStockPriceGo cfg fetch now stockPriceOrder st

/-- A provider is skipped by _get_stock_price when it is not configured or
its circuit breaker forbids an attempt (evaluated against the state the
chain starts from; earlier providers never touch the breaker of a later
one). -/
def SkippedAt (cfg : Provider → Bool) (now : ℚ) (st : ServiceState)
    (p : Provider) : Prop :=
  ¬ (cfg p = true ∧ ((st.circuit_breakers p).can_attempt now).1 = true)

/-- A provider attempt fails: the adapter raises, or it returns a truthy
price that validate_price_data rejects (negative; zero is falsy and is not
validated). -/
def FailsAt (fetch : Provider → Except DataErr (Option ℚ)) (p : Provider) :
    Prop :=
  (∃ e, fetch p = .error e) ∨ (∃ q, fetch p = .ok (some q) ∧ q < 0)

/-- A provider attempt succeeds with a valid price q. -/
def ValidAt (fetch : Provider → Except DataErr (Option ℚ)) (p : Provider)
    (q : ℚ) : Prop :=
  fetch p = .ok (some q) ∧ 0 < q

/-- One provider block of _get_crypto_price (lines 630-684).  The crypto
path differs from the stock path: no circuit-breaker gate, no
validate_price_data call, no truthiness check on the extracted price, and a
failure only stamps last_error (error_count and the breaker are untouched).
fetch returns none for a falsy container (no bars / empty frame), some
price once the container is truthy, or an error for a raised exception. -/
def tryCryptoProvider (cfg : Provider → Bool)
    (fetch : Provider → Except DataErr (Option ℚ)) (now : ℚ) (p : Provider)
    (st : ServiceState) : Option ℚ × ServiceState :=
  if cfg p then
    let st := st.updStats p fun s =>
      { s with request_count := s.request_count + 1 }
    match fetch p with
    | .error _ => (none, st.updStats p fun s => { s with last_error := some now })
    | .ok none => (none, st)
    | .ok (some price) =>
      (some price, st.updStats p fun s =>
        { s with last_success := some now, success_count := s.success_count + 1 })
  else (none, st)

/-- The crypto fallback order: Alpaca crypto, Coinbase, yfinance. -/
def cryptoPriceOrder : List Provider := [.alpaca, .coinbase, .yfinance]

/-- Fallback chain of _get_crypto_price. -/
def getCryptoPriceGo (cfg : Provider → Bool)
    (fetch : Provider → Except DataErr (Option ℚ)) (now : ℚ) :
    List Provider → ServiceState → Option ℚ × ServiceState
  | [], st => (none, st)
  | p :: rest, st =>
    match tryCryptoProvider cfg fetch now p st with
    | (some price, st') => (some price, st')
    | (none, st') => getCryptoPriceGo cfg fetch now rest st'

/-- _get_crypto_price (lines 630-684). -/
def get_crypto_price (cfg : Provider → Bool)
    (fetch : Provider → Except DataErr (Option ℚ)) (now : ℚ)
    (st : ServiceState) : Option ℚ × ServiceState :=
  getCryptoPriceGo cfg fetch now cryptoPriceOrder st

/-- One provider block of _get_stock_historical (lines 700-750): same
structure as the stock-price block, with the series validated through
validate_historical_data(data, symbol, min_bars=1) before being accepted.
An empty returned list is falsy and falls through without recording. -/
def tryHistProvider (cfg : Provider → Bool)
    (fetch : Provider → Except DataErr (List RawBar)) (now : ℚ) (p : Provider)
    (st : ServiceState) : Option (List RawBar) × ServiceState :=
  if cfg p then
    let att := (st.circuit_breakers p).can_attempt now
    let st := st.updBreaker p (fun _ => att.2)
    if att.1 then
      let st := st.updStats p fun s =>
        { s with request_count := s.request_count + 1 }
      match fetch p with
      | .error e => (none, st.record_failure p e now)
      | .ok data =>
        if data ≠ [] then
          match validate_historical_data data 1 with
          | .ok _ => (some data, st.record_success p now)
          | .error e => (none, st.record_failure p e now)
        else (none, st)
    else (none, st)
  else (none, st)

/-- The stock-historical fallback order: Alpaca, yfinance. -/
def stockHistOrder : List Provider := [.alpaca, .yfinance]

/-- Fallback chain of _get_stock_historical; an exhausted chain returns the
empty list. -/
def getStockHistGo (cfg : Provider → Bool)
    (fetch : Provider → Except DataErr (List RawBar)) (now : ℚ) :
    List Provider → ServiceState → Option (List RawBar) × ServiceState
  | [], st => (none, st)
  | p :: rest, st =>
    match tryHistProvider cfg fetch now p st with
    | (some data, st') => (some data, st')
    | (none, st') => getStockHistGo cfg fetch now rest st'

/-- _get_stock_historical (lines 700-750). -/
def get_stock_historical (cfg : Provider → Bool)
    (fetch : Provider → Except DataErr (List RawBar)) (now : ℚ)
    (st : ServiceState) : Option (List RawBar) × ServiceState :=
  getStockHistGo cfg fetch now stockHistOrder st

/-- One provider block of _get_crypto_historical (lines 831-888): crypto
recording style (no breaker, no validation, no error_count); the fetch
returns some data once the vendor container is truthy (the list may even be
empty for the Alpaca block), none for a falsy container. -/
def tryCryptoHistProvider (cfg : Provider → Bool)
    (fetch : Provider → Except DataErr (Option (List RawBar))) (now : ℚ)
    (p : Provider) (st : ServiceState) :
    Option (List RawBar) × ServiceState :=
  if cfg p then
    let st := st.updStats p fun s =>
      { s with request_count := s.request_count + 1 }
    match fetch p with
    | .error _ => (none, st.updStats p fun s => { s with last_error := some now })
    | .ok none => (none, st)
    | .ok (some data) =>
      (some data, st.updStats p fun s =>
        { s with last_success := some now, success_count := s.success_count + 1 })
  else (none, st)

/-- The crypto-historical fallback order: Alpaca crypto, yfinance. -/
def cryptoHistOrder : List Provider := [.alpaca, .yfinance]

/-- Fallback chain of _get_crypto_historical. -/
def getCryptoHistGo (cfg : Provider → Bool)
    (fetch : Provider → Except DataErr (Option (List RawBar))) (now : ℚ) :
    List Provider → ServiceState → Option (List RawBar) × ServiceState
  | [], st => (none, st)
  | p :: rest, st =>
    match tryCryptoHistProvider cfg fetch now p st with
    | (some data, st') => (some data, st')
    | (none, st') => getCryptoHistGo cfg fetch now rest st'

/-- _get_crypto_historical (lines 831-888). -/
def get_crypto_historical (cfg : Provider → Bool)
    (fetch : Provider → Except DataErr (Option (List RawBar))) (now : ℚ)
    (st : ServiceState) : Option (List RawBar) × ServiceState :=
  getCryptoHistGo cfg fetch now cryptoHistOrder st

/-- _is_crypto(symbol) (lines 411-424): a symbol is crypto when it contains
one of the crypto suffixes as a substring or starts with a known crypto
root. -/
def is_crypto (symbol : String) : Bool :=
  (["-USD", "/USD", "USDT", "BUSD"].any fun suf =>
      decide (suf.toList <:+: symbol.toList)) ||
  (["BTC", "ETH", "SOL", "ADA", "DOT", "DOGE", "MATIC"].any fun root =>
      List.isPrefixOf root.toList symbol.toList)

/-- One public call against a MultiSourceDataService instance, carrying the
adapter behaviour observed during that call.  For a historical call both
the stock-shaped and crypto-shaped adapter outcomes are carried; only the
one selected by _is_crypto is consulted. -/
inductive ServiceOp where
  | price (symbol : String) (cfg : Provider → Bool)
      (fetch : Provider → Except DataErr (Option ℚ)) (now : ℚ)
  | historical (symbol : String) (cfg : Provider → Bool)
      (fetch : Provider → Except DataErr (List RawBar))
      (cfetch : Provider → Except DataErr (Option (List RawBar))) (now : ℚ)

/-- get_price (lines 426-434) and get_historical_data (lines 686-698):
dispatch on _is_crypto, then run the corresponding fallback chain;
only the resulting state is kept. -/
def ServiceOp.apply (st : ServiceState) : ServiceOp → ServiceState
  | .price symbol cfg fetch now =>
    if is_crypto symbol then (get_crypto_price cfg fetch now st).2
    else (get_stock_price cfg fetch now st).2
  | .historical symbol cfg fetch cfetch now =>
    if is_crypto symbol then (get_crypto_historical cfg cfetch now st).2
    else (get_stock_historical cfg fetch now st).2

/-- Run a sequence of public calls against a fresh service instance. -/
def runServiceOps (ops : List ServiceOp) : ServiceState :=
  ops.foldl ServiceOp.apply ServiceState.init

/-- The claimed per-provider counter invariant. -/
def ProviderStats.CounterOk (s : ProviderStats) : Prop :=
  s.success_count + s.error_count ≤ s.request_count

/-- One call moves the counters of each provider by at most one success or
one error per added request: the growth of success_count + error_count is
bounded by the growth of request_count. -/
def StatStep (a b : ProviderStats) : Prop :=
  b.success_count + b.error_count + a.request_count ≤
    a.success_count + a.error_count + b.request_count

/-- Signal kinds produced by the external signal generator and stored on
trades (Python keeps them as strings). -/
inductive Signal where
  | strong_buy
  | buy
  | neutral
  | sell
  | strong_sell
deriving DecidableEq

/-- The string carried by each signal kind in the Python code. -/
def Signal.name : Signal → String
  | .strong_buy => "STRONG_BUY"
  | .buy => "BUY"
  | .neutral => "NEUTRAL"
  | .sell => "SELL"
  | .strong_sell => "STRONG_SELL"

/-- The long-position test used throughout run_backtest:
signal in [BUY, STRONG_BUY]. -/
def Signal.isLong : Signal → Bool
  | .buy => true
  | .strong_buy => true
  | _ => false

/-- The Trade dataclass of backtesting_engine.py (lines 17-33).  Times are
rational timestamps in seconds; status is the literal Python string. -/
structure BtTrade where
  entry_time : ℚ
  exit_time : Option ℚ
  symbol : String
  signal : Signal
  entry_price : ℚ
  exit_price : Option ℚ
  quantity : ℚ
  stop_loss : ℚ
  take_profit : ℚ
  pnl : Option ℚ := none
  pnl_pct : Option ℚ := none
  status : String := "open"
  confidence : ℚ := 0
  hold_time_hours : Option ℚ := none
deriving DecidableEq

/-- commission_pct set in BacktestingEngine.__init__ (0.1 percent per
side). -/
def commission_pct : ℚ := 1 / 1000

/-- _check_exit_conditions (lines 235-257). -/
def check_exit_conditions (trade : BtTrade) (current_price : ℚ)
    (use_stop_loss use_take_profit : Bool) : Bool × String :=
  if trade.signal.isLong then
    if use_stop_loss ∧ current_price ≤ trade.stop_loss then (true, "stopped")
    else if use_take_profit ∧ trade.take_profit ≤ current_price then (true, "win")
    else (false, "")
  else
    if use_stop_loss ∧ trade.stop_loss ≤ current_price then (true, "stopped")
    else if use_take_profit ∧ current_price ≤ trade.take_profit then (true, "win")
    else (false, "")

/-- The in-loop position closure of run_backtest (lines 130-152): P&L with
commission on both entry and exit notional, percentage P&L, status from the
exit reason, and the hold time in hours. -/
def close_position_loop (t : BtTrade) (exit_time price : ℚ) (reason : String) :
    BtTrade :=
  let pnl0 := if t.signal.isLong then (price - t.entry_price) * t.quantity
              else (t.entry_price - price) * t.quantity
  let pnl := pnl0 - t.entry_price * t.quantity * commission_pct
                  - price * t.quantity * commission_pct
  { t with
    exit_time := some exit_time
    exit_price := some price
    pnl := some pnl
    pnl_pct := some (pnl / (t.entry_price * t.quantity) * 100)
    status := reason
    hold_time_hours := some ((exit_time - t.entry_time) / 3600) }

/-- The end-of-period forced closure of run_backtest (lines 201-218): same
P&L and commission arithmetic, status "end_of_period"; unlike the in-loop
closure it does not set hold_time_hours. -/
def close_position_end (t : BtTrade) (exit_time price : ℚ) : BtTrade :=
  let pnl0 := if t.signal.isLong then (price - t.entry_price) * t.quantity
              else (t.entry_price - price) * t.quantity
  let pnl := pnl0 - t.entry_price * t.quantity * commission_pct
                  - price * t.quantity * commission_pct
  { t with
    exit_time := some exit_time
    exit_price := some price
    pnl := some pnl
    pnl_pct := some (pnl / (t.entry_price * t.quantity) * 100)
    status := "end_of_period" }

/-- One bar of the dataframe replayed by run_backtest; ts is the parsed
date column as a rational timestamp in seconds. -/
structure PriceBar where
  ts : ℚ
  open_ : ℚ
  high : ℚ
  low : ℚ
  close : ℚ
  volume : ℚ
deriving DecidableEq

instance : Inhabited PriceBar := ⟨⟨0, 0, 0, 0, 0, 0⟩⟩

/-- The signal returned by ai_core.analyze_symbol for one bar window. -/
structure SignalRes where
  signal : Signal
  confidence : ℚ
  stop_loss : ℚ
  take_profit : ℚ
deriving DecidableEq

/-- The mutable loop variables of run_backtest: capital, closed trades, the
equity curve (date and equity pairs, in order), and the open position. -/
structure LoopState where
  capital : ℚ
  trades : List BtTrade
  equity : List (ℚ × ℚ)
  openPos : Option BtTrade
deriving DecidableEq

/-- Configuration arguments of run_backtest. -/
structure BtConfig where
  position_size_pct : ℚ := 1 / 10
  use_stop_loss : Bool := true
  use_take_profit : Bool := true
  min_confidence : ℚ := 3 / 5
deriving DecidableEq

/-- One iteration of the bar loop of run_backtest (lines 118-199) at index
i: first the exit check on any open position (closing appends the trade and
an equity point and updates capital), then, when no position is open and i
is on the 5-bar cadence, the entry check.  sig models the
ai_core.analyze_symbol call on the window ending at i; none models a raised
exception (caught and skipped). -/
def bt_step (bars : List PriceBar) (sig : ℕ → Option SignalRes)
    (cfg : BtConfig) (symbol : String) (st : LoopState) (i : ℕ) : LoopState :=
  let row := bars.getD i default
  let current_price := row.close
  let current_date := row.ts
  let st :=
    match st.openPos with
    | some t =>
      let ex := check_exit_conditions t current_price cfg.use_stop_loss
        cfg.use_take_profit
      if ex.1 then
        let t' := close_position_loop t current_date current_price ex.2
        let pnl := t'.pnl.getD 0
        { capital := st.capital + pnl
          trades := st.trades ++ [t']
          equity := st.equity ++ [(current_date, st.capital + pnl)]
          openPos := none }
      else st
    | none => st
  if st.openPos = none ∧ i % 5 = 0 then
    match sig i with
    | some s =>
      if cfg.min_confidence ≤ s.confidence ∧ s.signal ≠ .neutral then
        let position_value := st.capital * cfg.position_size_pct
        let quantity := position_value / current_price
        let newTrade : BtTrade :=
          { entry_time := current_date
            exit_time := none
            symbol := symbol
            signal := s.signal
            entry_price := current_price
            exit_price := none
            quantity := quantity
            stop_loss := s.stop_loss
            take_profit := s.take_profit
            confidence := s.confidence }
        { st with openPos := some newTrade }
      else st
    | none => st
  else st

/-- The bar loop: indices 60 to len - 1 in order. -/
def bt_loop (bars : List PriceBar) (sig : ℕ → Option SignalRes)
    (cfg : BtConfig) (symbol : String) (init : LoopState) : LoopState :=
  ((List.range bars.length).drop 60).foldl (bt_step bars sig cfg symbol) init

/-- Lines 201-218 of run_backtest: if a position is still open after the
loop, close it at the final bar with status "end_of_period" and update
capital; the trade is appended but no equity point is. -/
def close_remaining (bars : List PriceBar) (st : LoopState) : LoopState :=
  match st.openPos with
  | none => st
  | some t =>
    let lastRow := bars.getD (bars.length - 1) default
    let t' := close_position_end t lastRow.ts lastRow.close
    { st with
      capital := st.capital + t'.pnl.getD 0
      trades := st.trades ++ [t']
      openPos := none }

/-- The simulation part of run_backtest (lines 98-218): guard on at least
100 bars, initialize capital and the one-point equity curve, run the bar
loop, then force-close any remaining position. -/
def run_backtest_state (bars : List PriceBar) (sig : ℕ → Option SignalRes)
    (cfg : BtConfig) (symbol : String) (initial_capital start_ts : ℚ) :
    Except String LoopState :=
  if bars = [] ∨ bars.length < 100 then
    .error "Insufficient historical data"
  else
    .ok (close_remaining bars
      (bt_loop bars sig cfg symbol
        { capital := initial_capital
          trades := []
          equity := [(start_ts, initial_capital)]
          openPos := none }))

/-- np.mean over a list of floats. -/
def np_mean (xs : List ℚ) : ℚ := xs.sum / xs.length

/-- np.var with the default ddof = 0 (population variance), the square of
np.std. -/
def np_var (xs : List ℚ) : ℚ :=
  (xs.map fun x => (x - np_mean xs) ^ 2).sum / xs.length

/-- np.std: the square root of the population variance.  Irrational in
general, hence valued in the reals. -/
noncomputable def np_std (xs : List ℚ) : ℝ := Real.sqrt (np_var xs)

/-- IEEE float division as observed through numpy: a zero divisor produces
a non-finite value (inf, -inf or nan), modelled as none. -/
noncomputable def np_fdiv (a b : ℝ) : Option ℝ :=
  if b = 0 then none else some (a / b)

/-- max over a nonempty list of floats (the empty case never reaches numpy
in the source; 0 is an arbitrary total-ization). -/
def np_max (xs : List ℚ) : ℚ := xs.foldl max (xs.headD 0)

/-- min over a nonempty list of floats. -/
def np_min (xs : List ℚ) : ℚ := xs.foldl min (xs.headD 0)

/-- winning_trades of _calculate_metrics (line 363): t.pnl truthy and
positive, which amounts to pnl being set and strictly positive. -/
def winningTrades (trades : List BtTrade) : List BtTrade :=
  trades.filter fun t => t.pnl.any fun p => decide (0 < p)

/-- losing_trades (line 364): pnl set and strictly negative. -/
def losingTrades (trades : List BtTrade) : List BtTrade :=
  trades.filter fun t => t.pnl.any fun p => decide (p < 0)

/-- The returns list feeding the Sharpe ratio (line 380):
[t.pnl_pct for t in trades if t.pnl_pct] keeps only percentages that are
set and nonzero (0.0 is falsy in Python). -/
def sharpeReturns (trades : List BtTrade) : List ℚ :=
  trades.filterMap fun t =>
    match t.pnl_pct with
    | some q => if q ≠ 0 then some q else none
    | none => none

/-- Line 381: mean over std, annualized by sqrt 252, when more than one
return contributes, else 0.  A zero standard deviation makes the numpy
division non-finite (none). -/
noncomputable def sharpe_of (trades : List BtTrade) : Option ℝ :=
  let returns := sharpeReturns trades
  if 1 < returns.length then
    (np_fdiv (np_mean returns) (np_std returns)).map (· * Real.sqrt 252)
  else some 0

/-- The running peak / max-drawdown fold of _calculate_metrics (lines
383-395), over the equity values in order.  Python reads
equity_values[0] for the initial peak; the engine always passes a
nonempty curve, and headD 0 totalizes the empty case. -/
def max_drawdown_of (equity_values : List ℚ) : ℚ × ℚ :=
  (equity_values.foldl
    (fun acc e =>
      let peak := if acc.1 < e then e else acc.1
      let dd := peak - e
      let dd_pct := if 0 < peak then dd / peak * 100 else 0
      (peak, max acc.2.1 dd, max acc.2.2 dd_pct))
    (equity_values.headD 0, 0, 0)).2

/-- One value of the signal_performance map (lines 406-416). -/
structure SignalPerf where
  total_trades : ℕ
  win_rate : ℚ
  avg_pnl : ℚ
  total_pnl : ℚ
deriving DecidableEq

/-- The per-signal-kind entry, present only when the kind has trades.  pnl
is always set on closed trades; a missing pnl would make numpy raise and is
read as 0 here. -/
def perfFor (trades : List BtTrade) (s : Signal) : Option SignalPerf :=
  let signal_trades := trades.filter fun t => t.signal = s
  if signal_trades = [] then none
  else
    let signal_wins := signal_trades.filter fun t => t.pnl.any fun p => decide (0 < p)
    some
      { total_trades := signal_trades.length
        win_rate := (signal_wins.length : ℚ) / signal_trades.length * 100
        avg_pnl := np_mean (signal_trades.map fun t => t.pnl.getD 0)
        total_pnl := (signal_trades.map fun t => t.pnl.getD 0).sum }

/-- The iteration order of the signal_performance dict (line 407). -/
def signalKinds : List Signal :=
  [.strong_buy, .buy, .sell, .strong_sell]

/-- signal_performance as an insertion-ordered association list. -/
def signalPerformance (trades : List BtTrade) : List (String × SignalPerf) :=
  signalKinds.filterMap fun s => (perfFor trades s).map fun perf => (s.name, perf)

/-- best_signal_type (lines 419-422): Python max by win_rate returns the
first entry attaining the maximum in iteration order. -/
def bestSignalType (l : List (String × SignalPerf)) : String :=
  match l with
  | [] => "N/A"
  | x :: xs =>
    (xs.foldl (fun best y => if best.2.win_rate < y.2.win_rate then y else best) x).1

/-- The BacktestResult dataclass (lines 36-62).  Dates are kept as rational
timestamps; the sharpe field holds none when the float computation is
non-finite. -/
structure BacktestResult where
  symbol : String
  start_ts : ℚ
  end_ts : ℚ
  initial_capital : ℚ
  final_capital : ℚ
  total_return_pct : ℚ
  total_trades : ℕ
  winning_trades : ℕ
  losing_trades : ℕ
  win_rate : ℚ
  avg_win : ℚ
  avg_loss : ℚ
  largest_win : ℚ
  largest_loss : ℚ
  profit_factor : ℚ
  sharpe : Option ℝ
  max_drawdown : ℚ
  max_drawdown_pct : ℚ
  avg_hold_time_hours : ℚ
  trades_per_day : ℚ
  best_signal_type : String
  signal_performance : List (String × SignalPerf)
  equity_curve : List (ℚ × ℚ)
  trades : List BtTrade

/-- _calculate_metrics (lines 319-449).  The empty-trade branch returns the
all-zero result preserving the passed equity curve; otherwise every
aggregate is computed as in the source. -/
noncomputable def calculate_metrics (symbol : String) (start_ts end_ts : ℚ)
    (initial_capital final_capital : ℚ) (trades : List BtTrade)
    (equity_curve : List (ℚ × ℚ)) : BacktestResult :=
  if trades = [] then
    { symbol := symbol
      start_ts := start_ts
      end_ts := end_ts
      initial_capital := initial_capital
      final_capital := final_capital
      total_return_pct := 0
      total_trades := 0
      winning_trades := 0
      losing_trades := 0
      win_rate := 0
      avg_win := 0
      avg_loss := 0
      largest_win := 0
      largest_loss := 0
      profit_factor := 0
      sharpe := some 0
      max_drawdown := 0
      max_drawdown_pct := 0
      avg_hold_time_hours := 0
      trades_per_day := 0
      best_signal_type := "N/A"
      signal_performance := []
      equity_curve := equity_curve
      trades := [] }
  else
    let winning := winningTrades trades
    let losing := losingTrades trades
    let winPnls := winning.map fun t => t.pnl.getD 0
    let losePnls := losing.map fun t => t.pnl.getD 0
    let total_profit := if winning ≠ [] then winPnls.sum else 0
    let total_loss := if losing ≠ [] then |losePnls.sum| else 1
    let dd := max_drawdown_of (equity_curve.map fun e => e.2)
    let hold_times := trades.filterMap fun t =>
      match t.hold_time_hours with
      | some h => if h ≠ 0 then some h else none
      | none => none
    let days : ℤ := ⌊(end_ts - start_ts) / 86400⌋
    let perf := signalPerformance trades
    { symbol := symbol
      start_ts := start_ts
      end_ts := end_ts
      initial_capital := initial_capital
      final_capital := final_capital
      total_return_pct := (final_capital - initial_capital) / initial_capital * 100
      total_trades := trades.length
      winning_trades := winning.length
      losing_trades := losing.length
      win_rate := (winning.length : ℚ) / trades.length * 100
      avg_win := if winning ≠ [] then np_mean winPnls else 0
      avg_loss := if losing ≠ [] then np_mean losePnls else 0
      largest_win := if winning ≠ [] then np_max winPnls else 0
      largest_loss := if losing ≠ [] then np_min losePnls else 0
      profit_factor := if 0 < total_loss then total_profit / total_loss else 0
      sharpe := sharpe_of trades
      max_drawdown := dd.1
      max_drawdown_pct := dd.2
      avg_hold_time_hours := if hold_times ≠ [] then np_mean hold_times else 0
      trades_per_day := if 0 < days then (trades.length : ℚ) / days else 0
      best_signal_type := bestSignalType perf
      signal_performance := perf
      equity_curve := equity_curve
      trades := trades }

/-- run_backtest (lines 76-233): the simulation followed by
_calculate_metrics on the final capital, trade list and equity curve. -/
noncomputable def run_backtest (bars : List PriceBar)
    (sig : ℕ → Option SignalRes) (cfg : BtConfig) (symbol : String)
    (initial_capital start_ts end_ts : ℚ) : Except String BacktestResult :=
  (run_backtest_state bars sig cfg symbol initial_capital start_ts).map
    fun fin => calculate_metrics symbol start_ts end_ts initial_capital
      fin.capital fin.trades fin.equity

/-- A constant 100-price bar used to exercise the engine on a concrete
run. -/
def demoBar : PriceBar :=
  { ts := 0, open_ := 100, high := 100, low := 100, close := 100,
    volume := 1000000 }

/-- A 100-bar series of constant bars. -/
def demoBars : List PriceBar := List.replicate 100 demoBar

/-- A signal oracle producing one confident BUY at bar 95 whose stop and
target are never hit by the constant series. -/
def demoSig : ℕ → Option SignalRes := fun i =>
  if i = 95 then
    some { signal := .buy, confidence := 1, stop_loss := 90, take_profit := 120 }
  else none

/-- The open position created by demoSig at bar 95 of demoBars. -/
def demoOpenTrade : BtTrade :=
  { entry_time := 0, exit_time := none, symbol := "AAPL", signal := .buy,
    entry_price := 100, exit_price := none, quantity := 100, stop_loss := 90,
    take_profit := 120, confidence := 1 }

/-- The loop state just before bar 95 of the demo run opens a position,
and (being unchanged afterwards) the state the bar loop ends in. -/
def demoLoopState : LoopState :=
  { capital := 100000, trades := [], equity := [(0, 100000)],
    openPos := some demoOpenTrade }

/-- The demo open position as closed by the end-of-period branch. -/
def demoClosedTrade : BtTrade :=
  { entry_time := 0, exit_time := some 0, symbol := "AAPL", signal := .buy,
    entry_price := 100, exit_price := some 100, quantity := 100,
    stop_loss := 90, take_profit := 120, pnl := some (-20),
    pnl_pct := some (-1/5), status := "end_of_period", confidence := 1,
    hold_time_hours := none }

/-- The final state of the demo run: capital reduced by the commission of
the forced closure, one closed trade, and the equity curve still holding
only its initial point. -/
def demoFinalState : LoopState :=
  { capital := 99980, trades := [demoClosedTrade],
    equity := [(0, 100000)], openPos := none }

/-- A closed winning trade used in concrete checks. -/
def tradeWin : BtTrade :=
  { entry_time := 0, exit_time := some 0, symbol := "AAPL", signal := .buy,
    entry_price := 100, exit_price := some 110, quantity := 1,
    stop_loss := 90, take_profit := 105, pnl := some 5 }

/-- A closed losing trade used in concrete checks. -/
def tradeLoss : BtTrade :=
  { entry_time := 0, exit_time := some 0, symbol := "AAPL", signal := .buy,
    entry_price := 100, exit_price := some 97, quantity := 1,
    stop_loss := 90, take_profit := 105, pnl := some (-3) }

/-- A closed break-even trade used in concrete checks. -/
def tradeZero : BtTrade :=
  { entry_time := 0, exit_time := some 0, symbol := "AAPL", signal := .buy,
    entry_price := 100, exit_price := some 100, quantity := 1,
    stop_loss := 90, take_profit := 105, pnl := some 0 }

/-- A closed trade with P&L percentage 5, for the Sharpe checks. -/
def tradeFlat5 : BtTrade :=
  { entry_time := 0, exit_time := some 0, symbol := "AAPL", signal := .buy,
    entry_price := 100, exit_price := some 105, quantity := 1,
    stop_loss := 90, take_profit := 104, pnl := some 5, pnl_pct := some 5 }

/-- A closed trade with P&L percentage 1. -/
def tradePct1 : BtTrade :=
  { entry_time := 0, exit_time := some 0, symbol := "AAPL", signal := .buy,
    entry_price := 100, exit_price := some 101, quantity := 1,
    stop_loss := 90, take_profit := 104, pnl := some 1, pnl_pct := some 1 }

/-- A closed trade with P&L percentage 3. -/
def tradePct3 : BtTrade :=
  { entry_time := 0, exit_time := some 0, symbol := "AAPL", signal := .buy,
    entry_price := 100, exit_price := some 103, quantity := 1,
    stop_loss := 90, take_profit := 104, pnl := some 3, pnl_pct := some 3 }

theorem statStep_rfl (a : ProviderStats) : StatStep a a := by
  simp [StatStep]

theorem statStep_trans {a b c : ProviderStats} (h1 : StatStep a b)
    (h2 : StatStep b c) : StatStep a c := by
  simp only [StatStep] at *
  omega

theorem statStep_counterOk {a b : ProviderStats} (h : a.CounterOk)
    (hs : StatStep a b) : b.CounterOk := by
  simp only [StatStep, ProviderStats.CounterOk] at *
  omega

@[simp] theorem updStats_stats_same (st : ServiceState) (p : Provider)
    (f : ProviderStats → ProviderStats) :
    (st.updStats p f).provider_stats p = f (st.provider_stats p) := by
  simp [ServiceState.updStats]

theorem updStats_stats_ne (st : ServiceState) (p q : Provider)
    (f : ProviderStats → ProviderStats) (h : q ≠ p) :
    (st.updStats p f).provider_stats q = st.provider_stats q := by
  simp [ServiceState.updStats, Function.update_noteq h]

@[simp] theorem updStats_breakers (st : ServiceState) (p q : Provider)
    (f : ProviderStats → ProviderStats) :
    (st.updStats p f).circuit_breakers q = st.circuit_breakers q := rfl

@[simp] theorem updBreaker_stats (st : ServiceState) (p q : Provider)
    (f : CircuitBreaker → CircuitBreaker) :
    (st.updBreaker p f).provider_stats q = st.provider_stats q := rfl

@[simp] theorem updBreaker_breakers_same (st : ServiceState) (p : Provider)
    (f : CircuitBreaker → CircuitBreaker) :
    (st.updBreaker p f).circuit_breakers p = f (st.circuit_breakers p) := by
  simp [ServiceState.updBreaker]

theorem updBreaker_breakers_ne (st : ServiceState) (p q : Provider)
    (f : CircuitBreaker → CircuitBreaker) (h : q ≠ p) :
    (st.updBreaker p f).circuit_breakers q = st.circuit_breakers q := by
  simp [ServiceState.updBreaker, Function.update_noteq h]

theorem can_attempt_false_snd (cb : CircuitBreaker) (now : ℚ)
    (h : (cb.can_attempt now).1 = false) : (cb.can_attempt now).2 = cb := by
  unfold CircuitBreaker.can_attempt at *
  rcases hl : cb.last_failure_time with _ | t
  all_goals simp only [hl] at h ⊢
  all_goals split_ifs at h ⊢
  all_goals simp_all

theorem call_failed_iterate (thr : ℕ) (T s : ℚ) (k : ℕ) :
    (fun b => CircuitBreaker.call_failed b s)^[k] (CircuitBreaker.init thr T) =
      { threshold := thr, timeout := T, failure_count := k,
        last_failure_time := if k = 0 then none else some s,
        state := if thr ≤ k ∧ 1 ≤ k then "open" else "closed" } := by
  induction k with
  | zero => simp [CircuitBreaker.init]
  | succ n ih =>
    rw [Function.iterate_succ_apply', ih]
    unfold CircuitBreaker.call_failed
    simp only []
    split_ifs <;> simp_all
    omega

/-- C2: for a fresh breaker with positive threshold t and timeout T, after
exactly t call_failed invocations (all stamped at time s) the state is
"open" and can_attempt is false while no more than T seconds have passed;
at the first can_attempt more than T seconds after the failure it returns
true and the state becomes "half-open"; a following call_succeeded resets
failure_count to 0 and the state to "closed". -/
theorem C2_breaker_lifecycle (thr : ℕ) (T s now now' : ℚ)
    (hthr : 0 < thr) (hnow : now - s ≤ T) (hnow' : T < now' - s) :
    ((fun b => CircuitBreaker.call_failed b s)^[thr]
        (CircuitBreaker.init thr T)).state = "open" ∧
    (((fun b => CircuitBreaker.call_failed b s)^[thr]
        (CircuitBreaker.init thr T)).can_attempt now) =
      (false, (fun b => CircuitBreaker.call_failed b s)^[thr]
        (CircuitBreaker.init thr T)) ∧
    (((fun b => CircuitBreaker.call_failed b s)^[thr]
        (CircuitBreaker.init thr T)).can_attempt now').1 = true ∧
    (((fun b => CircuitBreaker.call_failed b s)^[thr]
        (CircuitBreaker.init thr T)).can_attempt now').2.state = "half-open" ∧
    ((((fun b => CircuitBreaker.call_failed b s)^[thr]
        (CircuitBreaker.init thr T)).can_attempt now').2.call_succeeded).failure_count = 0 ∧
    ((((fun b => CircuitBreaker.call_failed b s)^[thr]
        (CircuitBreaker.init thr T)).can_attempt now').2.call_succeeded).state = "closed" := by
  rw [call_failed_iterate]
  have h0 : thr ≠ 0 := by omega
  have hs1 : thr ≤ thr ∧ 1 ≤ thr := ⟨le_refl _, hthr⟩
  rw [if_pos hs1, if_neg h0]
  refine ⟨rfl, ?_, ?_, ?_, ?_, ?_⟩ <;>
    simp [CircuitBreaker.can_attempt, CircuitBreaker.call_succeeded,
      not_lt.mpr hnow, hnow']

/-- Witness for C2 at threshold 2, timeout 10, failures at time 0, a first
can_attempt at time 5 and a second at time 11. -/
theorem C2_breaker_lifecycle_witness :
    ((fun b => CircuitBreaker.call_failed b 0)^[2]
        (CircuitBreaker.init 2 10)).state = "open" ∧
    (((fun b => CircuitBreaker.call_failed b 0)^[2]
        (CircuitBreaker.init 2 10)).can_attempt 5) =
      (false, (fun b => CircuitBreaker.call_failed b 0)^[2]
        (CircuitBreaker.init 2 10)) ∧
    (((fun b => CircuitBreaker.call_failed b 0)^[2]
        (CircuitBreaker.init 2 10)).can_attempt 11).1 = true ∧
    (((fun b => CircuitBreaker.call_failed b 0)^[2]
        (CircuitBreaker.init 2 10)).can_attempt 11).2.state = "half-open" ∧
    ((((fun b => CircuitBreaker.call_failed b 0)^[2]
        (CircuitBreaker.init 2 10)).can_attempt 11).2.call_succeeded).failure_count = 0 ∧
    ((((fun b => CircuitBreaker.call_failed b 0)^[2]
        (CircuitBreaker.init 2 10)).can_attempt 11).2.call_succeeded).state = "closed" :=
  C2_breaker_lifecycle 2 10 0 5 11 (by norm_num) (by norm_num) (by norm_num)

theorem retryGo_all_retryable {α : Type} (op : ℕ → Except DataErr α)
    (cap : ℚ) (r : ℕ) :
    ∀ (attempt : ℕ) (delay : ℚ),
      (∀ i, attempt ≤ i → i ≤ attempt + r →
        ∃ e, op i = .error e ∧ e.retryableErr = true) →
      retryGo op cap attempt delay r =
        (op (attempt + r), attempt + r + 1, backoffDelays delay cap r) := by
  induction r with
  | zero =>
    intro attempt delay h
    obtain ⟨e, he, _⟩ := h attempt (le_refl _) (by omega)
    simp [retryGo, backoffDelays, he]
  | succ n ih =>
    intro attempt delay h
    obtain ⟨e, he, hr⟩ := h attempt (le_refl _) (by omega)
    have hrec := ih (attempt + 1) (min (delay * 2) cap)
      (fun i h1 h2 => h i (by omega) (by omega))
    simp only [retryGo, he, hr, if_true, hrec, backoffDelays]
    have hn : attempt + 1 + n = attempt + (n + 1) := by omega
    rw [hn]

/-- C3: the retry wrapper makes exactly one attempt and re-raises
immediately when the operation raises any of the four typed non-retryable
errors, and with only retryable errors it makes exactly max_retries + 1
attempts, sleeping the backoff sequence delay, min(delay*2, cap), ... and
finally re-raising the last (retryable) error, which is the outcome of the
last attempt. -/
theorem C3_retry_budget :
    (∀ (α : Type) (n : ℕ) (d : ℚ) (op : ℕ → Except DataErr α) (e : DataErr),
      op 0 = .error e →
      (e = .auth ∨ e = .invalidSymbol ∨ e = .dataValidation ∨ e = .emptyData) →
      retry_with_backoff n d op = (.error e, 1, [])) ∧
    (∀ (α : Type) (n : ℕ) (d : ℚ) (op : ℕ → Except DataErr α),
      (∀ i, i ≤ n → ∃ e, op i = .error e ∧ e.retryableErr = true) →
      retry_with_backoff n d op =
        (op n, n + 1, backoffDelays d MAX_RETRY_DELAY n)) := by
  constructor
  · intro α n d op e he hkind
    have hnr : e.retryableErr = false := by
      rcases hkind with h | h | h | h <;> subst h <;> rfl
    unfold retry_with_backoff
    cases n with
    | zero => simp [retryGo, he]
    | succ m => simp [retryGo, he, hnr]
  · intro α n d op h
    unfold retry_with_backoff
    have := retryGo_all_retryable op MAX_RETRY_DELAY n 0 d
      (fun i h1 h2 => h i (by omega))
    simpa using this

/-- Witness for C3: a non-retryable InvalidSymbolError is raised after one
attempt even with budget 2, and an always-NetworkError operation with
budget 2 and initial delay 1 is attempted 3 times with sleeps [1, 2]. -/
theorem C3_retry_budget_witness :
    retry_with_backoff 2 1 (fun _ => (.error .invalidSymbol : Except DataErr ℚ)) =
      (.error .invalidSymbol, 1, []) ∧
    retry_with_backoff 2 1 (fun _ => (.error .network : Except DataErr ℚ)) =
      ((fun _ => (.error .network : Except DataErr ℚ)) 2, 3,
        backoffDelays 1 MAX_RETRY_DELAY 2) :=
  ⟨C3_retry_budget.1 ℚ 2 1 _ .invalidSymbol rfl (Or.inr (Or.inl rfl)),
   C3_retry_budget.2 ℚ 2 1 _ (fun _ _ => ⟨.network, rfl, rfl⟩)⟩

/-- C4: for a long position whose take-profit is reached (and whose
stop-loss does not fire first) the exit check reports ("win") and the
in-loop closure records net P&L = (exit - entry) * quantity minus
commission on the entry notional and on the exit notional. -/
theorem C4_long_take_profit (t : BtTrade) (price et : ℚ) (use_sl : Bool)
    (hlong : t.signal.isLong = true)
    (htp : t.take_profit ≤ price)
    (hsl : ¬ (use_sl = true ∧ price ≤ t.stop_loss)) :
    check_exit_conditions t price use_sl true = (true, "win") ∧
    (close_position_loop t et price "win").status = "win" ∧
    (close_position_loop t et price "win").pnl =
      some ((price - t.entry_price) * t.quantity
        - t.entry_price * t.quantity * commission_pct
        - price * t.quantity * commission_pct) := by
  refine ⟨?_, rfl, ?_⟩
  · unfold check_exit_conditions
    rw [hlong]
    simp only [if_true, Bool.true_eq]
    rw [if_neg, if_pos ⟨by trivial, htp⟩]
    intro hc
    exact hsl ⟨hc.1, hc.2⟩
  · unfold close_position_loop
    rw [hlong]
    simp

/-- Witness for C4: entry 100, quantity 10, take-profit 110, stop 95,
commission 0.1 percent, exit at 110: status "win" and P&L exactly 97.9. -/
theorem C4_long_take_profit_witness :
    check_exit_conditions
      { entry_time := 0, exit_time := none, symbol := "AAPL", signal := .buy,
        entry_price := 100, exit_price := none, quantity := 10,
        stop_loss := 95, take_profit := 110 } 110 true true = (true, "win") ∧
    (close_position_loop
      { entry_time := 0, exit_time := none, symbol := "AAPL", signal := .buy,
        entry_price := 100, exit_price := none, quantity := 10,
        stop_loss := 95, take_profit := 110 } 0 110 "win").pnl =
      some (979 / 10) := by
  have h := C4_long_take_profit
    { entry_time := 0, exit_time := none, symbol := "AAPL", signal := .buy,
      entry_price := 100, exit_price := none, quantity := 10,
      stop_loss := 95, take_profit := 110 } 110 0 true rfl (by norm_num)
    (by norm_num)
  exact ⟨h.1, h.2.2.trans (by norm_num [commission_pct])⟩

theorem validateBarsGo_cons_wf (b : RawBar) (rest : List RawBar)
    (h : b.WellFormed) : validateBarsGo (b :: rest) = validateBarsGo rest := by
  obtain ⟨o, hi, lo, c, v, hbo, hbh, hbl, hbc, hbv,
    h1, h2, h3, h4, h5, h6, h7, h8⟩ := h
  conv_lhs => rw [validateBarsGo]
  simp only [RawBar.missingFields, hbo, hbh, hbl, hbc, hbv, Option.isNone_some,
    Bool.or_self, Option.getD_some, Bool.false_eq_true, if_false]
  have hrel : ¬ ¬ (lo ≤ o ∧ o ≤ hi ∧ lo ≤ c ∧ c ≤ hi) :=
    not_not_intro ⟨h1, h2, h3, h4⟩
  have hpos : ¬ (o ≤ 0 ∨ hi ≤ 0 ∨ lo ≤ 0 ∨ c ≤ 0) := by
    push_neg
    exact ⟨h5, h6, h7, h8⟩
  rw [if_neg hrel, if_neg hpos]

theorem validateBarsGo_cons_bad (b : RawBar) (rest : List RawBar)
    (h : ¬ b.WellFormed) :
    validateBarsGo (b :: rest) = .error .dataValidation := by
  conv_lhs => rw [validateBarsGo]
  rcases hbo : b.open_ with _ | o <;>
  rcases hbh : b.high with _ | hi <;>
  rcases hbl : b.low with _ | lo <;>
  rcases hbc : b.close with _ | c <;>
  rcases hbv : b.volume with _ | v
  all_goals
    simp only [RawBar.missingFields, hbo, hbh, hbl, hbc, hbv,
      Option.isNone_some, Option.isNone_none, Bool.or_true, Bool.true_or,
      Bool.or_false, Bool.false_or, if_true, Option.getD_some,
      Bool.false_eq_true, if_false]
  split_ifs with hrel hpos
  all_goals try rfl
  all_goals exfalso
  all_goals push_neg at hpos
  all_goals exact h ⟨o, hi, lo, c, v, hbo, hbh, hbl, hbc, hbv, hrel.1,
    hrel.2.1, hrel.2.2.1, hrel.2.2.2, hpos.1, hpos.2.1, hpos.2.2.1,
    hpos.2.2.2⟩

theorem validateBarsGo_ok (l : List RawBar) (h : ∀ b ∈ l, b.WellFormed) :
    validateBarsGo l = .ok () := by
  induction l with
  | nil => rfl
  | cons b rest ih =>
    rw [validateBarsGo_cons_wf b rest (h b (by simp))]
    exact ih fun x hx => h x (by simp [hx])

theorem validateBarsGo_bad (l : List RawBar) (h : ∃ b ∈ l, ¬ b.WellFormed) :
    validateBarsGo l = .error .dataValidation := by
  induction l with
  | nil => simp at h
  | cons b rest ih =>
    by_cases hb : b.WellFormed
    · rw [validateBarsGo_cons_wf b rest hb]
      apply ih
      rcases h with ⟨x, hx, hxw⟩
      rcases List.mem_cons.mp hx with hxb | hxr
      · exact absurd (hxb ▸ hb) hxw
      · exact ⟨x, hxr, hxw⟩
    · exact validateBarsGo_cons_bad b rest hb

/-- C6 counterexample: a single bar violating high ≥ low in a series that
is under the minimum length is rejected with EmptyDataError, not with the
DataValidationError the claim asserts for every list containing a
malformed bar. -/
theorem C6_reject_counterexample :
    validate_historical_data
      [{ open_ := some 5, high := some 1, low := some 4, close := some 5,
         volume := some 10 }] 2 = .error .emptyData ∧
    DataErr.emptyData ≠ DataErr.dataValidation ∧
    ¬ ({ open_ := some 5, high := some 1, low := some 4, close := some 5,
         volume := some 10 } : RawBar).WellFormed := by
  refine ⟨rfl, by decide, by decide⟩

/-- C6 (amended): once the series is nonempty and meets the minimum
length, any single malformed bar makes validate_historical_data fail with
DataValidationError even when all other bars are valid; an empty or
under-minimum series fails with EmptyDataError; and a series of well-formed
bars meeting the minimum length validates successfully. -/
theorem C6_validate_bars :
    (∀ (data : List RawBar) (min_bars : ℕ),
      data ≠ [] → min_bars ≤ data.length →
      (∃ b ∈ data, ¬ b.WellFormed) →
      validate_historical_data data min_bars = .error .dataValidation) ∧
    (∀ (data : List RawBar) (min_bars : ℕ),
      data = [] ∨ data.length < min_bars →
      validate_historical_data data min_bars = .error .emptyData) ∧
    (∀ (data : List RawBar) (min_bars : ℕ),
      data ≠ [] → min_bars ≤ data.length →
      (∀ b ∈ data, b.WellFormed) →
      validate_historical_data data min_bars = .ok ()) := by
  refine ⟨?_, ?_, ?_⟩
  · intro data min_bars hne hlen hbad
    unfold validate_historical_data
    rw [if_neg hne, if_neg (not_lt.mpr hlen)]
    exact validateBarsGo_bad data hbad
  · intro data min_bars h
    unfold validate_historical_data
    rcases h with h | h
    · rw [if_pos h]
    · rcases em (data = []) with he | he
      · rw [if_pos he]
      · rw [if_neg he, if_pos h]
  · intro data min_bars hne hlen hwf
    unfold validate_historical_data
    rw [if_neg hne, if_neg (not_lt.mpr hlen)]
    exact validateBarsGo_ok data hwf

/-- Witness for C6 (amended): a malformed bar in a length-sufficient
series gives DataValidationError, an empty series gives EmptyDataError,
and a well-formed length-sufficient series validates. -/
theorem C6_validate_bars_witness :
    validate_historical_data
      [{ open_ := some 5, high := some 1, low := some 4, close := some 5,
         volume := some 10 }] 1 = .error .dataValidation ∧
    validate_historical_data [] 1 = .error .emptyData ∧
    validate_historical_data
      [{ open_ := some 5, high := some 6, low := some 4, close := some 5,
         volume := some 10 }] 1 = .ok () :=
  ⟨C6_validate_bars.1 _ 1 (by decide) (by decide)
      ⟨_, List.mem_singleton.mpr rfl, by decide⟩,
   C6_validate_bars.2.1 [] 1 (Or.inl rfl),
   C6_validate_bars.2.2 _ 1 (by decide) (by decide)
      (fun b hb => by rw [List.mem_singleton.mp hb]; decide)⟩

/-- C8: _calculate_metrics on an empty trade list returns the all-zero
BacktestResult rather than failing: zero counts, rates and ratios, best
signal "N/A", empty signal-performance map and trade list, and the passed
equity curve preserved. -/
theorem C8_empty_trades (symbol : String) (sd ed ic fc : ℚ)
    (eq : List (ℚ × ℚ)) :
    (calculate_metrics symbol sd ed ic fc [] eq).total_trades = 0 ∧
    (calculate_metrics symbol sd ed ic fc [] eq).winning_trades = 0 ∧
    (calculate_metrics symbol sd ed ic fc [] eq).losing_trades = 0 ∧
    (calculate_metrics symbol sd ed ic fc [] eq).win_rate = 0 ∧
    (calculate_metrics symbol sd ed ic fc [] eq).avg_win = 0 ∧
    (calculate_metrics symbol sd ed ic fc [] eq).avg_loss = 0 ∧
    (calculate_metrics symbol sd ed ic fc [] eq).largest_win = 0 ∧
    (calculate_metrics symbol sd ed ic fc [] eq).largest_loss = 0 ∧
    (calculate_metrics symbol sd ed ic fc [] eq).profit_factor = 0 ∧
    (calculate_metrics symbol sd ed ic fc [] eq).sharpe = some 0 ∧
    (calculate_metrics symbol sd ed ic fc [] eq).max_drawdown = 0 ∧
    (calculate_metrics symbol sd ed ic fc [] eq).max_drawdown_pct = 0 ∧
    (calculate_metrics symbol sd ed ic fc [] eq).avg_hold_time_hours = 0 ∧
    (calculate_metrics symbol sd ed ic fc [] eq).trades_per_day = 0 ∧
    (calculate_metrics symbol sd ed ic fc [] eq).best_signal_type = "N/A" ∧
    (calculate_metrics symbol sd ed ic fc [] eq).signal_performance = [] ∧
    (calculate_metrics symbol sd ed ic fc [] eq).equity_curve = eq ∧
    (calculate_metrics symbol sd ed ic fc [] eq).trades = [] := by
  unfold calculate_metrics
  rw [if_pos rfl]
  exact ⟨rfl, rfl, rfl, rfl, rfl, rfl, rfl, rfl, rfl, rfl, rfl, rfl, rfl,
    rfl, rfl, rfl, rfl, rfl⟩

theorem calculate_metrics_winning (symbol : String) (sd ed ic fc : ℚ)
    (trades : List BtTrade) (eq : List (ℚ × ℚ)) (hne : trades ≠ []) :
    (calculate_metrics symbol sd ed ic fc trades eq).winning_trades =
      (winningTrades trades).length := by
  unfold calculate_metrics
  rw [if_neg hne]

theorem calculate_metrics_losing (symbol : String) (sd ed ic fc : ℚ)
    (trades : List BtTrade) (eq : List (ℚ × ℚ)) (hne : trades ≠ []) :
    (calculate_metrics symbol sd ed ic fc trades eq).losing_trades =
      (losingTrades trades).length := by
  unfold calculate_metrics
  rw [if_neg hne]

theorem calculate_metrics_total (symbol : String) (sd ed ic fc : ℚ)
    (trades : List BtTrade) (eq : List (ℚ × ℚ)) (hne : trades ≠ []) :
    (calculate_metrics symbol sd ed ic fc trades eq).total_trades =
      trades.length := by
  unfold calculate_metrics
  rw [if_neg hne]

theorem calculate_metrics_win_rate (symbol : String) (sd ed ic fc : ℚ)
    (trades : List BtTrade) (eq : List (ℚ × ℚ)) (hne : trades ≠ []) :
    (calculate_metrics symbol sd ed ic fc trades eq).win_rate =
      ((winningTrades trades).length : ℚ) / trades.length * 100 := by
  unfold calculate_metrics
  rw [if_neg hne]

theorem winningTrades_length (trades : List BtTrade) :
    (winningTrades trades).length =
      trades.countP fun t => decide (0 < t.pnl.getD 0) := by
  unfold winningTrades
  rw [List.countP_eq_length_filter]
  congr 1
  apply List.filter_congr
  intro t _
  cases h : t.pnl <;> simp

theorem losingTrades_length (trades : List BtTrade) :
    (losingTrades trades).length =
      trades.countP fun t => decide (t.pnl.getD 0 < 0) := by
  unfold losingTrades
  rw [List.countP_eq_length_filter]
  congr 1
  apply List.filter_congr
  intro t _
  cases h : t.pnl <;> simp

theorem pos_neg_countP_le (trades : List BtTrade) :
    (trades.countP fun t => decide (0 < t.pnl.getD 0)) +
      (trades.countP fun t => decide (t.pnl.getD 0 < 0)) ≤ trades.length := by
  induction trades with
  | nil => simp
  | cons t rest ih =>
    simp only [List.countP_cons, List.length_cons]
    by_cases h1 : (0 : ℚ) < t.pnl.getD 0 <;> by_cases h2 : t.pnl.getD 0 < 0
    · linarith
    all_goals simp [h1, h2]
    all_goals omega

/-- C9: _calculate_metrics counts as winning exactly the trades with pnl
set and strictly positive, and as losing exactly those strictly negative;
a zero or unset pnl is counted in neither, so winners plus losers never
exceed the total and the win rate treats a break-even trade exactly like a
losing one. -/
theorem C9_breakeven_counting :
    (∀ (symbol : String) (sd ed ic fc : ℚ) (trades : List BtTrade)
        (eq : List (ℚ × ℚ)), trades ≠ [] →
      (calculate_metrics symbol sd ed ic fc trades eq).winning_trades =
        (trades.countP fun t => decide (0 < t.pnl.getD 0)) ∧
      (calculate_metrics symbol sd ed ic fc trades eq).losing_trades =
        (trades.countP fun t => decide (t.pnl.getD 0 < 0)) ∧
      (calculate_metrics symbol sd ed ic fc trades eq).winning_trades +
          (calculate_metrics symbol sd ed ic fc trades eq).losing_trades ≤
        (calculate_metrics symbol sd ed ic fc trades eq).total_trades ∧
      (calculate_metrics symbol sd ed ic fc trades eq).win_rate =
        ((calculate_metrics symbol sd ed ic fc trades eq).winning_trades : ℚ) /
          (calculate_metrics symbol sd ed ic fc trades eq).total_trades * 100) ∧
    (∀ (symbol : String) (sd ed ic fc : ℚ) (trades : List BtTrade)
        (eq : List (ℚ × ℚ)) (t0 t1 : BtTrade),
      t0.pnl = none ∨ t0.pnl = some 0 →
      (∃ p, t1.pnl = some p ∧ p < 0) →
      (calculate_metrics symbol sd ed ic fc (trades ++ [t0]) eq).win_rate =
        (calculate_metrics symbol sd ed ic fc (trades ++ [t1]) eq).win_rate) := by
  constructor
  · intro symbol sd ed ic fc trades eq hne
    refine ⟨?_, ?_, ?_, ?_⟩
    · rw [calculate_metrics_winning symbol sd ed ic fc trades eq hne,
        winningTrades_length]
    · rw [calculate_metrics_losing symbol sd ed ic fc trades eq hne,
        losingTrades_length]
    · rw [calculate_metrics_winning symbol sd ed ic fc trades eq hne,
        calculate_metrics_losing symbol sd ed ic fc trades eq hne,
        calculate_metrics_total symbol sd ed ic fc trades eq hne,
        winningTrades_length, losingTrades_length]
      exact pos_neg_countP_le trades
    · rw [calculate_metrics_win_rate symbol sd ed ic fc trades eq hne,
        calculate_metrics_winning symbol sd ed ic fc trades eq hne,
        calculate_metrics_total symbol sd ed ic fc trades eq hne]
  · intro symbol sd ed ic fc trades eq t0 t1 h0 h1
    have hne0 : trades ++ [t0] ≠ [] := by simp
    have hne1 : trades ++ [t1] ≠ [] := by simp
    rw [calculate_metrics_win_rate symbol sd ed ic fc _ eq hne0,
      calculate_metrics_win_rate symbol sd ed ic fc _ eq hne1]
    have hw0 : winningTrades (trades ++ [t0]) = winningTrades trades := by
      unfold winningTrades
      rw [List.filter_append]
      rcases h0 with h | h <;> simp [h]
    have hw1 : winningTrades (trades ++ [t1]) = winningTrades trades := by
      unfold winningTrades
      rw [List.filter_append]
      obtain ⟨p, hp, hneg⟩ := h1
      simp [hp, not_lt.mpr (le_of_lt hneg)]
    rw [hw0, hw1]
    simp

/-- Witness for C9: concrete closed trades, one winning, one losing, one
break-even; the break-even trade moves the win rate exactly as the losing
trade does. -/
theorem C9_breakeven_counting_witness :
    (calculate_metrics "AAPL" 0 86400 100 110 [tradeWin] []).winning_trades =
      ([tradeWin].countP fun t => decide (0 < t.pnl.getD 0)) ∧
    (calculate_metrics "AAPL" 0 86400 100 110
        ([tradeWin] ++ [tradeZero]) []).win_rate =
      (calculate_metrics "AAPL" 0 86400 100 110
        ([tradeWin] ++ [tradeLoss]) []).win_rate :=
  ⟨(C9_breakeven_counting.1 "AAPL" 0 86400 100 110 _ [] (by simp)).1,
   C9_breakeven_counting.2 "AAPL" 0 86400 100 110 _ [] _ _
     (Or.inr rfl) ⟨-3, rfl, by norm_num⟩⟩

theorem np_var_nonneg (xs : List ℚ) : 0 ≤ np_var xs := by
  unfold np_var
  apply div_nonneg
  · apply List.sum_nonneg
    intro x hx
    obtain ⟨y, _, rfl⟩ := List.mem_map.mp hx
    positivity
  · positivity

theorem np_std_eq_zero_iff (xs : List ℚ) : np_std xs = 0 ↔ np_var xs = 0 := by
  unfold np_std
  rw [Real.sqrt_eq_zero (by exact_mod_cast np_var_nonneg xs)]
  exact_mod_cast Iff.rfl

/-- C7 counterexample: two trades with the identical nonzero P&L
percentage 5 make the contributing returns list [5, 5], whose variance is
0; the numpy division by a zero standard deviation is non-finite (modelled
none), so the Sharpe ratio is not the 0 the claim asserts for the
zero-variance case. -/
theorem C7_sharpe_counterexample :
    1 < (sharpeReturns [tradeFlat5, tradeFlat5]).length ∧
    np_var (sharpeReturns [tradeFlat5, tradeFlat5]) = 0 ∧
    sharpe_of [tradeFlat5, tradeFlat5] = none ∧
    sharpe_of [tradeFlat5, tradeFlat5] ≠ some 0 := by
  have h1 : sharpeReturns [tradeFlat5, tradeFlat5] = [5, 5] := rfl
  have hv : np_var (sharpeReturns [tradeFlat5, tradeFlat5]) = 0 := by
    rw [h1]
    norm_num [np_var, np_mean]
  have hs : sharpe_of [tradeFlat5, tradeFlat5] = none := by
    unfold sharpe_of np_fdiv
    rw [if_pos (by rw [h1]; norm_num)]
    rw [if_pos ((np_std_eq_zero_iff _).mpr hv)]
    rfl
  exact ⟨by rw [h1]; norm_num, hv, hs, by rw [hs]; simp⟩

/-- C7 (amended): the Sharpe ratio is 0 when at most one trade contributes
a nonzero P&L percentage; with more than one contributing return and
nonzero variance it equals mean over standard deviation times sqrt 252;
with more than one contributing return and zero variance the division by a
zero standard deviation yields a non-finite float (modelled none), not 0. -/
theorem C7_sharpe_zero_variance (trades : List BtTrade) :
    ((sharpeReturns trades).length ≤ 1 → sharpe_of trades = some 0) ∧
    (1 < (sharpeReturns trades).length →
      np_var (sharpeReturns trades) ≠ 0 →
      sharpe_of trades =
        some (((np_mean (sharpeReturns trades) : ℝ) /
          np_std (sharpeReturns trades)) * Real.sqrt 252)) ∧
    (1 < (sharpeReturns trades).length →
      np_var (sharpeReturns trades) = 0 → sharpe_of trades = none) := by
  refine ⟨?_, ?_, ?_⟩
  · intro h
    unfold sharpe_of
    rw [if_neg (not_lt.mpr h)]
  · intro h hv
    unfold sharpe_of np_fdiv
    rw [if_pos h]
    have hstd : np_std (sharpeReturns trades) ≠ 0 := by
      rw [Ne, np_std_eq_zero_iff]
      exact hv
    rw [if_neg hstd]
    rfl
  · intro h hv
    unfold sharpe_of np_fdiv
    rw [if_pos h]
    rw [if_pos ((np_std_eq_zero_iff _).mpr hv)]
    rfl

/-- Witness for C7 (amended): an empty trade list gives Sharpe 0, and two
trades with P&L percentages 1 and 3 (variance 1) give the mean-over-std
formula. -/
theorem C7_sharpe_zero_variance_witness :
    sharpe_of [] = some 0 ∧
    sharpe_of [tradePct1, tradePct3] =
      some (((np_mean (sharpeReturns [tradePct1, tradePct3]) : ℝ) /
        np_std (sharpeReturns [tradePct1, tradePct3])) * Real.sqrt 252) := by
  have h0 : sharpeReturns [] = [] := rfl
  have h13 : sharpeReturns [tradePct1, tradePct3] = [1, 3] := rfl
  refine ⟨(C7_sharpe_zero_variance []).1 (by rw [h0]; norm_num),
    (C7_sharpe_zero_variance [tradePct1, tradePct3]).2.1
      (by rw [h13]; norm_num) (by rw [h13]; norm_num [np_var, np_mean])⟩

theorem demoBars_getD (i : ℕ) (h : i < 100) :
    demoBars.getD i default = demoBar := by
  unfold demoBars
  rw [List.getD_eq_getElem?_getD, List.getElem?_replicate, if_pos h]
  rfl

theorem bt_step_silent (cap : ℚ) (tr : List BtTrade) (eqy : List (ℚ × ℚ))
    (i : ℕ) (hne : i ≠ 95) :
    bt_step demoBars demoSig {} "AAPL" ⟨cap, tr, eqy, none⟩ i =
      ⟨cap, tr, eqy, none⟩ := by
  unfold bt_step
  simp [demoSig, hne]

theorem bt_step_hold (st : LoopState) (i : ℕ) (hi : i < 100)
    (hopen : st.openPos = some demoOpenTrade) :
    bt_step demoBars demoSig {} "AAPL" st i = st := by
  unfold bt_step
  rw [demoBars_getD i hi]
  norm_num [hopen, check_exit_conditions, demoOpenTrade, Signal.isLong,
    demoBar]
  exact fun hc => absurd hc (Option.some_ne_none _)

theorem foldl_silent : ∀ (l : List ℕ), (∀ i ∈ l, i ≠ 95) →
    ∀ (cap : ℚ) (tr : List BtTrade) (eqy : List (ℚ × ℚ)),
    l.foldl (bt_step demoBars demoSig {} "AAPL") ⟨cap, tr, eqy, none⟩ =
      ⟨cap, tr, eqy, none⟩ := by
  intro l
  induction l with
  | nil => intro _ cap tr eqy; rfl
  | cons a l ih =>
    intro h cap tr eqy
    rw [List.foldl_cons, bt_step_silent cap tr eqy a (h a (by simp))]
    exact ih (fun i hi => h i (by simp [hi])) cap tr eqy

theorem foldl_hold : ∀ (l : List ℕ), (∀ i ∈ l, i < 100) →
    ∀ (st : LoopState), st.openPos = some demoOpenTrade →
    l.foldl (bt_step demoBars demoSig {} "AAPL") st = st := by
  intro l
  induction l with
  | nil => intro _ st _; rfl
  | cons a l ih =>
    intro h st hopen
    rw [List.foldl_cons, bt_step_hold st a (h a (by simp)) hopen]
    exact ih (fun i hi => h i (by simp [hi])) st hopen

theorem bt_step_entry :
    bt_step demoBars demoSig {} "AAPL"
      { capital := 100000, trades := [], equity := [(0, 100000)],
        openPos := none } 95 = demoLoopState := by
  unfold bt_step
  rw [demoBars_getD 95 (by norm_num)]
  norm_num [demoSig, demoBar, demoLoopState, demoOpenTrade]
  exact fun hc => Signal.noConfusion hc

theorem bt_loop_demo :
    bt_loop demoBars demoSig {} "AAPL"
      { capital := 100000, trades := [], equity := [(0, 100000)],
        openPos := none } = demoLoopState := by
  unfold bt_loop
  rw [show demoBars.length = 100 by simp [demoBars]]
  rw [show (List.range 100).drop 60 =
    List.range' 60 35 ++ 95 :: List.range' 96 4 by decide]
  rw [List.foldl_append, List.foldl_cons]
  rw [foldl_silent (List.range' 60 35) (by decide) 100000 [] [(0, 100000)]]
  rw [bt_step_entry]
  exact foldl_hold (List.range' 96 4) (by decide) demoLoopState rfl

theorem close_remaining_demo :
    close_remaining demoBars demoLoopState = demoFinalState := by
  unfold close_remaining demoLoopState
  simp only []
  rw [show demoBars.length - 1 = 99 by simp [demoBars]]
  rw [demoBars_getD 99 (by norm_num)]
  norm_num [close_position_end, demoOpenTrade, demoClosedTrade,
    demoFinalState, demoBar, commission_pct, Signal.isLong]

/-- C5 counterexample: in the demo run a position opened at bar 95 of 100
survives to the end of the loop; run_backtest closes it with status
"end_of_period" and updates capital from 100000 to 99980, but the equity
curve still holds only its initial point, so no equity point carrying the
post-closure capital is appended and the last equity value differs from
the final capital. -/
theorem C5_equity_counterexample :
    run_backtest_state demoBars demoSig {} "AAPL" 100000 0 =
      .ok demoFinalState ∧
    demoFinalState.trades.map (fun t => t.status) = ["end_of_period"] ∧
    demoFinalState.equity = [(0, 100000)] ∧
    demoFinalState.capital = 99980 ∧
    ¬ (demoFinalState.equity.map fun e => e.2).getLast? =
        some demoFinalState.capital := by
  refine ⟨?_, rfl, rfl, rfl, ?_⟩
  · unfold run_backtest_state
    rw [if_neg (by norm_num [demoBars]), bt_loop_demo, close_remaining_demo]
  · norm_num [demoFinalState]

/-- C5 (amended): when a position is still open at the end of the bar
loop, run_backtest closes it at the final bar with status "end_of_period",
computing P&L and commission exactly as an in-loop exit does and adding
the P&L to capital, and appends the closed trade to the trade list — but
it appends no equity point: the equity curve is returned unchanged by the
forced closure. -/
theorem C5_end_of_period_close (bars : List PriceBar)
    (sig : ℕ → Option SignalRes) (cfg : BtConfig) (symbol : String)
    (ic start_ts : ℚ) (t : BtTrade)
    (hlen : ¬ (bars = [] ∨ bars.length < 100))
    (hopen : (bt_loop bars sig cfg symbol
        { capital := ic, trades := [], equity := [(start_ts, ic)],
          openPos := none }).openPos = some t) :
    run_backtest_state bars sig cfg symbol ic start_ts =
      .ok { capital :=
              (bt_loop bars sig cfg symbol
                { capital := ic, trades := [], equity := [(start_ts, ic)],
                  openPos := none }).capital +
              (close_position_end t (bars.getD (bars.length - 1) default).ts
                (bars.getD (bars.length - 1) default).close).pnl.getD 0
            trades :=
              (bt_loop bars sig cfg symbol
                { capital := ic, trades := [], equity := [(start_ts, ic)],
                  openPos := none }).trades ++
              [close_position_end t (bars.getD (bars.length - 1) default).ts
                (bars.getD (bars.length - 1) default).close]
            equity :=
              (bt_loop bars sig cfg symbol
                { capital := ic, trades := [], equity := [(start_ts, ic)],
                  openPos := none }).equity
            openPos := none } ∧
    (close_position_end t (bars.getD (bars.length - 1) default).ts
      (bars.getD (bars.length - 1) default).close).status =
        "end_of_period" ∧
    (close_position_end t (bars.getD (bars.length - 1) default).ts
      (bars.getD (bars.length - 1) default).close).exit_price =
        some (bars.getD (bars.length - 1) default).close ∧
    (close_position_end t (bars.getD (bars.length - 1) default).ts
      (bars.getD (bars.length - 1) default).close).pnl =
      (close_position_loop t (bars.getD (bars.length - 1) default).ts
        (bars.getD (bars.length - 1) default).close "end_of_period").pnl := by
  refine ⟨?_, rfl, rfl, rfl⟩
  unfold run_backtest_state
  rw [if_neg hlen]
  unfold close_remaining
  rw [hopen]

/-- Witness for C5 (amended), at the demo run. -/
theorem C5_end_of_period_close_witness :
    run_backtest_state demoBars demoSig {} "AAPL" 100000 0 =
      .ok { capital :=
              (bt_loop demoBars demoSig {} "AAPL"
                { capital := 100000, trades := [],
                  equity := [(0, 100000)], openPos := none }).capital +
              (close_position_end demoOpenTrade
                (demoBars.getD (demoBars.length - 1) default).ts
                (demoBars.getD (demoBars.length - 1) default).close).pnl.getD 0
            trades :=
              (bt_loop demoBars demoSig {} "AAPL"
                { capital := 100000, trades := [],
                  equity := [(0, 100000)], openPos := none }).trades ++
              [close_position_end demoOpenTrade
                (demoBars.getD (demoBars.length - 1) default).ts
                (demoBars.getD (demoBars.length - 1) default).close]
            equity :=
              (bt_loop demoBars demoSig {} "AAPL"
                { capital := 100000, trades := [],
                  equity := [(0, 100000)], openPos := none }).equity
            openPos := none } ∧
    (close_position_end demoOpenTrade
      (demoBars.getD (demoBars.length - 1) default).ts
      (demoBars.getD (demoBars.length - 1) default).close).status =
        "end_of_period" :=
  have h := C5_end_of_period_close demoBars demoSig {} "AAPL" 100000 0
    demoOpenTrade (by norm_num [demoBars])
    (by rw [bt_loop_demo]; rfl)
  ⟨h.1, h.2.1⟩

theorem updBreaker_self (st : ServiceState) (p : Provider) :
    st.updBreaker p (fun _ => st.circuit_breakers p) = st := by
  unfold ServiceState.updBreaker
  rw [Function.update_eq_self]

theorem tryStockProvider_skipped (cfg : Provider → Bool)
    (fetch : Provider → Except DataErr (Option ℚ)) (now : ℚ) (p : Provider)
    (st : ServiceState) (h : SkippedAt cfg now st p) :
    tryStockProvider cfg fetch now p st = (none, st) := by
  unfold SkippedAt at h
  cases hcfg : cfg p with
  | false => simp [tryStockProvider, hcfg]
  | true =>
    have hatt : ((st.circuit_breakers p).can_attempt now).1 = false := by
      by_contra hc
      exact h ⟨hcfg, eq_true_of_ne_false hc⟩
    unfold tryStockProvider
    simp only [hcfg, if_true, hatt, Bool.false_eq_true, if_false]
    rw [can_attempt_false_snd _ _ hatt, updBreaker_self]

theorem tryStockProvider_fails (cfg : Provider → Bool)
    (fetch : Provider → Except DataErr (Option ℚ)) (now : ℚ) (p : Provider)
    (st : ServiceState) (hcfg : cfg p = true)
    (hatt : ((st.circuit_breakers p).can_attempt now).1 = true)
    (hf : FailsAt fetch p) :
    (tryStockProvider cfg fetch now p st).1 = none ∧
    ((tryStockProvider cfg fetch now p st).2.provider_stats p).error_count =
      (st.provider_stats p).error_count + 1 ∧
    (∀ q, q ≠ p →
      (tryStockProvider cfg fetch now p st).2.provider_stats q =
        st.provider_stats q) ∧
    (∀ q, q ≠ p →
      (tryStockProvider cfg fetch now p st).2.circuit_breakers q =
        st.circuit_breakers q) := by
  unfold tryStockProvider
  simp only [hcfg, if_true, hatt]
  rcases hf with ⟨e, he⟩ | ⟨qv, he, hneg⟩
  · rw [he]
    refine ⟨rfl, ?_, ?_, ?_⟩
    · simp [ServiceState.record_failure]
    · intro q hq
      simp [ServiceState.record_failure, updStats_stats_ne _ _ _ _ hq]
    · intro q hq
      simp [ServiceState.record_failure,
        updBreaker_breakers_ne _ _ _ _ hq]
  · simp only [he]
    rw [if_pos (ne_of_lt hneg), if_pos (le_of_lt hneg)]
    refine ⟨rfl, ?_, ?_, ?_⟩
    · simp [ServiceState.record_failure]
    · intro q hq
      simp [ServiceState.record_failure, updStats_stats_ne _ _ _ _ hq]
    · intro q hq
      simp [ServiceState.record_failure,
        updBreaker_breakers_ne _ _ _ _ hq]

theorem tryStockProvider_valid (cfg : Provider → Bool)
    (fetch : Provider → Except DataErr (Option ℚ)) (now : ℚ) (p : Provider)
    (st : ServiceState) (qv : ℚ) (hcfg : cfg p = true)
    (hatt : ((st.circuit_breakers p).can_attempt now).1 = true)
    (hv : ValidAt fetch p qv) :
    (tryStockProvider cfg fetch now p st).1 = some qv ∧
    ((tryStockProvider cfg fetch now p st).2.provider_stats p).success_count =
      (st.provider_stats p).success_count + 1 ∧
    ((tryStockProvider cfg fetch now p st).2.circuit_breakers p).state =
      "closed" ∧
    ((tryStockProvider cfg fetch now p st).2.circuit_breakers p).failure_count
      = 0 ∧
    (∀ q, q ≠ p →
      (tryStockProvider cfg fetch now p st).2.provider_stats q =
        st.provider_stats q) ∧
    (∀ q, q ≠ p →
      (tryStockProvider cfg fetch now p st).2.circuit_breakers q =
        st.circuit_breakers q) := by
  obtain ⟨he, hpos⟩ := hv
  unfold tryStockProvider
  simp only [hcfg, if_true, hatt, he]
  rw [if_pos (ne_of_gt hpos), if_neg (not_le.mpr hpos)]
  refine ⟨rfl, ?_, ?_, ?_, ?_, ?_⟩
  · simp [ServiceState.record_success]
  · simp [ServiceState.record_success, CircuitBreaker.call_succeeded]
  · simp [ServiceState.record_success, CircuitBreaker.call_succeeded]
  · intro q hq
    simp [ServiceState.record_success, updStats_stats_ne _ _ _ _ hq]
  · intro q hq
    simp [ServiceState.record_success, updBreaker_breakers_ne _ _ _ _ hq]

theorem skippedAt_congr (cfg : Provider → Bool) (now : ℚ)
    (st st' : ServiceState) (p : Provider)
    (h : st'.circuit_breakers p = st.circuit_breakers p) :
    SkippedAt cfg now st' p ↔ SkippedAt cfg now st p := by
  unfold SkippedAt
  rw [h]

theorem getStockPriceGo_append (cfg : Provider → Bool)
    (fetch : Provider → Except DataErr (Option ℚ)) (now : ℚ) :
    ∀ (l1 l2 : List Provider) (st : ServiceState),
      (getStockPriceGo cfg fetch now l1 st).1 = none →
      getStockPriceGo cfg fetch now (l1 ++ l2) st =
        getStockPriceGo cfg fetch now l2
          (getStockPriceGo cfg fetch now l1 st).2 := by
  intro l1
  induction l1 with
  | nil => intro l2 st _; rfl
  | cons p l1 ih =>
    intro l2 st hnone
    cases htry : tryStockProvider cfg fetch now p st with
    | mk res st2 =>
      cases res with
      | some v =>
        exfalso
        simp only [getStockPriceGo, htry] at hnone
        exact Option.noConfusion hnone
      | none =>
        simp only [List.cons_append, getStockPriceGo, htry]
        simp only [getStockPriceGo, htry] at hnone
        exact ih l2 st2 hnone

theorem getStockPriceGo_all_fail (cfg : Provider → Bool)
    (fetch : Provider → Except DataErr (Option ℚ)) (now : ℚ) :
    ∀ (l : List Provider) (st : ServiceState), l.Nodup →
      (∀ r ∈ l, SkippedAt cfg now st r ∨ FailsAt fetch r) →
      (getStockPriceGo cfg fetch now l st).1 = none ∧
      (∀ r ∈ l, ¬ SkippedAt cfg now st r → FailsAt fetch r →
        ((getStockPriceGo cfg fetch now l st).2.provider_stats r).error_count
          = (st.provider_stats r).error_count + 1) ∧
      (∀ q, q ∉ l →
        (getStockPriceGo cfg fetch now l st).2.provider_stats q =
          st.provider_stats q ∧
        (getStockPriceGo cfg fetch now l st).2.circuit_breakers q =
          st.circuit_breakers q) := by
  intro l
  induction l with
  | nil =>
    intro st _ _
    exact ⟨rfl, by simp, fun q _ => ⟨rfl, rfl⟩⟩
  | cons p l ih =>
    intro st hnd hall
    have hpnl : p ∉ l := (List.nodup_cons.mp hnd).1
    have hndl : l.Nodup := (List.nodup_cons.mp hnd).2
    by_cases hskip : SkippedAt cfg now st p
    · have htry := tryStockProvider_skipped cfg fetch now p st hskip
      have hIH := ih st hndl (fun r hr => hall r (List.mem_cons_of_mem _ hr))
      refine ⟨?_, ?_, ?_⟩
      · simp only [getStockPriceGo, htry]
        exact hIH.1
      · intro r hr hns hf
        rcases List.mem_cons.mp hr with rfl | hr'
        · exact absurd hskip hns
        · simp only [getStockPriceGo, htry]
          exact hIH.2.1 r hr' hns hf
      · intro q hq
        simp only [getStockPriceGo, htry]
        exact hIH.2.2 q (fun hql => hq (List.mem_cons_of_mem _ hql))
    · have hfail : FailsAt fetch p := by
        rcases hall p (List.mem_cons_self p l) with h | h
        · exact absurd h hskip
        · exact h
      have hconj : cfg p = true ∧
          ((st.circuit_breakers p).can_attempt now).1 = true :=
        not_not.mp hskip
      have htry := tryStockProvider_fails cfg fetch now p st hconj.1 hconj.2
        hfail
      cases htryEq : tryStockProvider cfg fetch now p st with
      | mk res st2 =>
        rw [htryEq] at htry
        simp only at htry
        obtain ⟨hres, herr, hfr1, hfr2⟩ := htry
        subst hres
        have hall2 : ∀ r ∈ l, SkippedAt cfg now st2 r ∨ FailsAt fetch r := by
          intro r hr
          have hrp : r ≠ p := by rintro rfl; exact hpnl hr
          rcases hall r (List.mem_cons_of_mem _ hr) with h | h
          · exact Or.inl ((skippedAt_congr cfg now st st2 r
              (hfr2 r hrp)).mpr h)
          · exact Or.inr h
        have hIH := ih st2 hndl hall2
        refine ⟨?_, ?_, ?_⟩
        · simp only [getStockPriceGo, htryEq]
          exact hIH.1
        · intro r hr hns hf
          rcases List.mem_cons.mp hr with rfl | hr'
          · simp only [getStockPriceGo, htryEq]
            rw [(hIH.2.2 r hpnl).1]
            exact herr
          · have hrp : r ≠ p := by rintro rfl; exact hpnl hr'
            simp only [getStockPriceGo, htryEq]
            rw [hIH.2.1 r hr'
              (fun hs => hns ((skippedAt_congr cfg now st st2 r
                (hfr2 r hrp)).mp hs)) hf]
            rw [hfr1 r hrp]
        · intro q hq
          have hqp : q ≠ p := fun h => hq (h ▸ List.mem_cons_self p l)
          have hql : q ∉ l := fun h => hq (List.mem_cons_of_mem _ h)
          simp only [getStockPriceGo, htryEq]
          obtain ⟨h1, h2⟩ := hIH.2.2 q hql
          exact ⟨h1.trans (hfr1 q hqp), h2.trans (hfr2 q hqp)⟩

theorem getStockPriceGo_first_valid (cfg : Provider → Bool)
    (fetch : Provider → Except DataErr (Option ℚ)) (now : ℚ)
    (pre : List Provider) (p : Provider) (post : List Provider)
    (st : ServiceState) (qv : ℚ) (hnd : (pre ++ p :: post).Nodup)
    (hpre : ∀ r ∈ pre, SkippedAt cfg now st r ∨ FailsAt fetch r)
    (hns : ¬ SkippedAt cfg now st p) (hv : ValidAt fetch p qv) :
    (getStockPriceGo cfg fetch now (pre ++ p :: post) st).1 = some qv ∧
    ((getStockPriceGo cfg fetch now (pre ++ p :: post) st).2.provider_stats
        p).success_count = (st.provider_stats p).success_count + 1 ∧
    ((getStockPriceGo cfg fetch now (pre ++ p :: post) st).2.circuit_breakers
        p).state = "closed" ∧
    ((getStockPriceGo cfg fetch now (pre ++ p :: post) st).2.circuit_breakers
        p).failure_count = 0 ∧
    (∀ r ∈ pre, ¬ SkippedAt cfg now st r → FailsAt fetch r →
      ((getStockPriceGo cfg fetch now (pre ++ p :: post) st).2.provider_stats
          r).error_count = (st.provider_stats r).error_count + 1) ∧
    (∀ q ∈ post,
      (getStockPriceGo cfg fetch now (pre ++ p :: post) st).2.provider_stats
        q = st.provider_stats q ∧
      (getStockPriceGo cfg fetch now (pre ++ p :: post) st).2.circuit_breakers
        q = st.circuit_breakers q) := by
  obtain ⟨hndPre, hndTail, hdisj⟩ := List.nodup_append.mp hnd
  have hpPre : p ∉ pre := fun h => hdisj h (List.mem_cons_self p post)
  have hAF := getStockPriceGo_all_fail cfg fetch now pre st hndPre hpre
  have happ := getStockPriceGo_append cfg fetch now pre (p :: post) st hAF.1
  obtain ⟨hstP, hbrP⟩ := hAF.2.2 p hpPre
  have hns1 : ¬ SkippedAt cfg now
      (getStockPriceGo cfg fetch now pre st).2 p :=
    fun hs => hns ((skippedAt_congr cfg now st _ p hbrP).mp hs)
  have hconj : cfg p = true ∧
      (((getStockPriceGo cfg fetch now pre st).2.circuit_breakers
        p).can_attempt now).1 = true := not_not.mp hns1
  have htry := tryStockProvider_valid cfg fetch now p
    (getStockPriceGo cfg fetch now pre st).2 qv hconj.1 hconj.2 hv
  cases htryEq : tryStockProvider cfg fetch now p
      (getStockPriceGo cfg fetch now pre st).2 with
  | mk res st2 =>
    rw [htryEq] at htry
    simp only at htry
    obtain ⟨hres, hsucc, hstate, hfc, hfr1, hfr2⟩ := htry
    subst hres
    have hgo : getStockPriceGo cfg fetch now (pre ++ p :: post) st =
        (some qv, st2) := by
      rw [happ]
      simp only [getStockPriceGo, htryEq]
    rw [hgo]
    refine ⟨rfl, ?_, hstate, hfc, ?_, ?_⟩
    · rw [hsucc, hstP]
    · intro r hr hnsr hf
      have hrp : r ≠ p := fun h => hpPre (h ▸ hr)
      simp only [hfr1 r hrp]
      exact hAF.2.1 r hr hnsr hf
    · intro q hq
      have hqp : q ≠ p := by
        rintro rfl
        exact (List.nodup_cons.mp hndTail).1 hq
      have hqPre : q ∉ pre := fun h => hdisj h (List.mem_cons_of_mem _ hq)
      obtain ⟨h1, h2⟩ := hAF.2.2 q hqPre
      exact ⟨(hfr1 q hqp).trans h1, (hfr2 q hqp).trans h2⟩

/-- C1: _get_stock_price tries the configured adapters in the fixed
priority order Alpaca, Polygon, Alpha Vantage, yfinance (the list
stockPriceOrder), skipping any adapter that is unconfigured or whose
breaker forbids an attempt; the first adapter returning a validated price
has exactly one success recorded on its stats and its breaker reset to
"closed", its price is returned and the adapters after it are untouched;
each earlier attempted adapter that fails has exactly one error recorded;
and when every adapter is skipped or fails the result is None. -/
theorem C1_fallback_priority :
    (∀ (cfg : Provider → Bool) (fetch : Provider → Except DataErr (Option ℚ))
        (now : ℚ) (st : ServiceState) (pre post : List Provider)
        (p : Provider) (q : ℚ),
      stockPriceOrder = pre ++ p :: post →
      (∀ r ∈ pre, SkippedAt cfg now st r ∨ FailsAt fetch r) →
      ¬ SkippedAt cfg now st p →
      ValidAt fetch p q →
      (get_stock_price cfg fetch now st).1 = some q ∧
      ((get_stock_price cfg fetch now st).2.provider_stats p).success_count =
        (st.provider_stats p).success_count + 1 ∧
      ((get_stock_price cfg fetch now st).2.circuit_breakers p).state =
        "closed" ∧
      ((get_stock_price cfg fetch now st).2.circuit_breakers
        p).failure_count = 0 ∧
      (∀ r ∈ pre, ¬ SkippedAt cfg now st r → FailsAt fetch r →
        ((get_stock_price cfg fetch now st).2.provider_stats r).error_count =
          (st.provider_stats r).error_count + 1) ∧
      (∀ r ∈ post,
        (get_stock_price cfg fetch now st).2.provider_stats r =
          st.provider_stats r ∧
        (get_stock_price cfg fetch now st).2.circuit_breakers r =
          st.circuit_breakers r)) ∧
    (∀ (cfg : Provider → Bool) (fetch : Provider → Except DataErr (Option ℚ))
        (now : ℚ) (st : ServiceState),
      (∀ r ∈ stockPriceOrder, SkippedAt cfg now st r ∨ FailsAt fetch r) →
      (get_stock_price cfg fetch now st).1 = none) := by
  constructor
  · intro cfg fetch now st pre post p q hsplit hpre hns hv
    have hnd : (pre ++ p :: post).Nodup := by
      rw [← hsplit]
      decide
    have h := getStockPriceGo_first_valid cfg fetch now pre p post st q hnd
      hpre hns hv
    unfold get_stock_price
    rw [hsplit]
    exact h
  · intro cfg fetch now st hall
    exact (getStockPriceGo_all_fail cfg fetch now stockPriceOrder st
      (by decide) hall).1

/-- Witness for C1: all adapters configured on a fresh service, Alpaca
raising a NetworkError and Polygon returning the valid price 42: the price
is returned, Polygon records one success, Alpaca one error, and Alpha
Vantage and yfinance are untouched. -/
theorem C1_fallback_priority_witness :
    (get_stock_price (fun _ => true)
      (fun p => if p = .alpaca then .error .network else .ok (some 42)) 0
      ServiceState.init).1 = some 42 ∧
    ((get_stock_price (fun _ => true)
      (fun p => if p = .alpaca then .error .network else .ok (some 42)) 0
      ServiceState.init).2.provider_stats .polygon).success_count =
        (ServiceState.init.provider_stats .polygon).success_count + 1 ∧
    (∀ r ∈ [Provider.alpaca],
      ¬ SkippedAt (fun _ => true) 0 ServiceState.init r →
      FailsAt (fun p => if p = .alpaca then .error .network else .ok (some 42))
        r →
      ((get_stock_price (fun _ => true)
        (fun p => if p = .alpaca then .error .network else .ok (some 42)) 0
        ServiceState.init).2.provider_stats r).error_count =
          (ServiceState.init.provider_stats r).error_count + 1) ∧
    (∀ r ∈ [Provider.alpha_vantage, Provider.yfinance],
      (get_stock_price (fun _ => true)
        (fun p => if p = .alpaca then .error .network else .ok (some 42)) 0
        ServiceState.init).2.provider_stats r =
          ServiceState.init.provider_stats r ∧
      (get_stock_price (fun _ => true)
        (fun p => if p = .alpaca then .error .network else .ok (some 42)) 0
        ServiceState.init).2.circuit_breakers r =
          ServiceState.init.circuit_breakers r) := by
  have h := C1_fallback_priority.1 (fun _ => true)
    (fun p => if p = .alpaca then .error .network else .ok (some 42)) 0
    ServiceState.init [.alpaca] [.alpha_vantage, .yfinance] .polygon 42
    rfl
    (by
      intro r hr
      rw [List.mem_singleton.mp hr]
      exact Or.inr (Or.inl ⟨.network, rfl⟩))
    (by
      intro hs
      exact hs ⟨rfl, rfl⟩)
    ⟨rfl, by norm_num⟩
  exact ⟨h.1, h.2.1, h.2.2.2.2.1, h.2.2.2.2.2⟩

theorem tryStockProvider_statStep (cfg : Provider → Bool)
    (fetch : Provider → Except DataErr (Option ℚ)) (now : ℚ) (p : Provider)
    (st : ServiceState) (q : Provider) :
    StatStep (st.provider_stats q)
      ((tryStockProvider cfg fetch now p st).2.provider_stats q) := by
  by_cases hq : q = p
  · subst hq
    cases hcfg : cfg q with
    | false =>
      simp only [tryStockProvider, hcfg, Bool.false_eq_true, if_false]
      exact statStep_rfl _
    | true =>
      cases hatt : ((st.circuit_breakers q).can_attempt now).1 with
      | false =>
        simp only [tryStockProvider, hcfg, if_true, hatt, Bool.false_eq_true,
          if_false, updBreaker_stats]
        exact statStep_rfl _
      | true =>
        cases hf : fetch q with
        | error e =>
          simp only [tryStockProvider, hcfg, if_true, hatt,
            ServiceState.record_failure, hf, updBreaker_stats,
            updStats_stats_same]
          unfold StatStep
          simp
          try omega
        | ok od =>
          cases od with
          | none =>
            simp only [tryStockProvider, hcfg, if_true, hatt, hf,
              updBreaker_stats, updStats_stats_same]
            unfold StatStep
            simp
          | some v =>
            by_cases hv0 : v = 0
            · simp only [tryStockProvider, hcfg, if_true, hatt, hf, hv0,
                ne_eq, not_true_eq_false, Bool.false_eq_true, if_false,
                updBreaker_stats, updStats_stats_same]
              unfold StatStep
              simp
              try omega
            · by_cases hvneg : v ≤ 0
              · simp only [tryStockProvider, hcfg, if_true, hatt, hf,
                  if_pos hv0, if_pos hvneg, ne_eq, hv0,
                  not_false_eq_true, if_true, ServiceState.record_failure,
                  updBreaker_stats, updStats_stats_same]
                unfold StatStep
                simp
                try omega
              · simp only [tryStockProvider, hcfg, if_true, hatt, hf, ne_eq,
                  hv0, not_false_eq_true, if_true, if_neg hvneg,
                  ServiceState.record_success, updBreaker_stats,
                  updStats_stats_same]
                unfold StatStep
                simp
                try omega
  · have hfr : (tryStockProvider cfg fetch now p st).2.provider_stats q =
        st.provider_stats q := by
      cases hcfg : cfg p with
      | false => simp [tryStockProvider, hcfg]
      | true =>
        cases hatt : ((st.circuit_breakers p).can_attempt now).1 with
        | false => simp [tryStockProvider, hcfg, hatt]
        | true =>
          cases hf : fetch p with
          | error e =>
            simp [tryStockProvider, hcfg, hatt, hf,
              ServiceState.record_failure, updStats_stats_ne _ p q _ hq]
          | ok od =>
            cases od with
            | none =>
              simp [tryStockProvider, hcfg, hatt, hf,
                updStats_stats_ne _ p q _ hq]
            | some v =>
              by_cases hv0 : v = 0
              · simp [tryStockProvider, hcfg, hatt, hf, hv0,
                  updStats_stats_ne _ p q _ hq]
              · by_cases hvneg : v ≤ 0
                · simp [tryStockProvider, hcfg, hatt, hf, hv0, hvneg,
                    ServiceState.record_failure,
                    updStats_stats_ne _ p q _ hq]
                · simp [tryStockProvider, hcfg, hatt, hf, hv0, hvneg,
                    ServiceState.record_success,
                    updStats_stats_ne _ p q _ hq]
    rw [hfr]
    exact statStep_rfl _

theorem tryCryptoProvider_statStep (cfg : Provider → Bool)
    (fetch : Provider → Except DataErr (Option ℚ)) (now : ℚ) (p : Provider)
    (st : ServiceState) (q : Provider) :
    StatStep (st.provider_stats q)
      ((tryCryptoProvider cfg fetch now p st).2.provider_stats q) := by
  by_cases hq : q = p
  · subst hq
    cases hcfg : cfg q with
    | false =>
      simp only [tryCryptoProvider, hcfg, Bool.false_eq_true, if_false]
      exact statStep_rfl _
    | true =>
      cases hf : fetch q with
      | error e =>
        simp only [tryCryptoProvider, hcfg, if_true, hf, updStats_stats_same]
        unfold StatStep
        simp
      | ok od =>
        cases od with
        | none =>
          simp only [tryCryptoProvider, hcfg, if_true, hf,
            updStats_stats_same]
          unfold StatStep
          simp
        | some v =>
          simp only [tryCryptoProvider, hcfg, if_true, hf,
            updStats_stats_same]
          unfold StatStep
          simp
          try omega
  · have hfr : (tryCryptoProvider cfg fetch now p st).2.provider_stats q =
        st.provider_stats q := by
      cases hcfg : cfg p with
      | false => simp [tryCryptoProvider, hcfg]
      | true =>
        cases hf : fetch p with
        | error e =>
          simp [tryCryptoProvider, hcfg, hf, updStats_stats_ne _ p q _ hq]
        | ok od =>
          cases od with
          | none =>
            simp [tryCryptoProvider, hcfg, hf, updStats_stats_ne _ p q _ hq]
          | some v =>
            simp [tryCryptoProvider, hcfg, hf, updStats_stats_ne _ p q _ hq]
    rw [hfr]
    exact statStep_rfl _

theorem tryHistProvider_statStep (cfg : Provider → Bool)
    (fetch : Provider → Except DataErr (List RawBar)) (now : ℚ)
    (p : Provider) (st : ServiceState) (q : Provider) :
    StatStep (st.provider_stats q)
      ((tryHistProvider cfg fetch now p st).2.provider_stats q) := by
  by_cases hq : q = p
  · subst hq
    cases hcfg : cfg q with
    | false =>
      simp only [tryHistProvider, hcfg, Bool.false_eq_true, if_false]
      exact statStep_rfl _
    | true =>
      cases hatt : ((st.circuit_breakers q).can_attempt now).1 with
      | false =>
        simp only [tryHistProvider, hcfg, if_true, hatt, Bool.false_eq_true,
          if_false, updBreaker_stats]
        exact statStep_rfl _
      | true =>
        cases hf : fetch q with
        | error e =>
          simp only [tryHistProvider, hcfg, if_true, hatt, hf,
            ServiceState.record_failure, updBreaker_stats,
            updStats_stats_same]
          unfold StatStep
          simp
          try omega
        | ok data =>
          by_cases hd : data = []
          · simp only [tryHistProvider, hcfg, if_true, hatt, hf, hd, ne_eq,
              not_true_eq_false, Bool.false_eq_true, if_false,
              updBreaker_stats, updStats_stats_same]
            unfold StatStep
            simp
          · cases hval : validate_historical_data data 1 with
            | ok u =>
              simp only [tryHistProvider, hcfg, if_true, hatt, hf, ne_eq, hd,
                not_false_eq_true, if_true, hval,
                ServiceState.record_success, updBreaker_stats,
                updStats_stats_same]
              unfold StatStep
              simp
              try omega
            | error e =>
              simp only [tryHistProvider, hcfg, if_true, hatt, hf, ne_eq, hd,
                not_false_eq_true, if_true, hval,
                ServiceState.record_failure, updBreaker_stats,
                updStats_stats_same]
              unfold StatStep
              simp
              try omega
  · have hfr : (tryHistProvider cfg fetch now p st).2.provider_stats q =
        st.provider_stats q := by
      cases hcfg : cfg p with
      | false => simp [tryHistProvider, hcfg]
      | true =>
        cases hatt : ((st.circuit_breakers p).can_attempt now).1 with
        | false => simp [tryHistProvider, hcfg, hatt]
        | true =>
          cases hf : fetch p with
          | error e =>
            simp [tryHistProvider, hcfg, hatt, hf,
              ServiceState.record_failure, updStats_stats_ne _ p q _ hq]
          | ok data =>
            by_cases hd : data = []
            · simp [tryHistProvider, hcfg, hatt, hf, hd,
                updStats_stats_ne _ p q _ hq]
            · cases hval : validate_historical_data data 1 with
              | ok u =>
                simp [tryHistProvider, hcfg, hatt, hf, hd, hval,
                  ServiceState.record_success,
                  updStats_stats_ne _ p q _ hq]
              | error e =>
                simp [tryHistProvider, hcfg, hatt, hf, hd, hval,
                  ServiceState.record_failure,
                  updStats_stats_ne _ p q _ hq]
    rw [hfr]
    exact statStep_rfl _

theorem tryCryptoHistProvider_statStep (cfg : Provider → Bool)
    (fetch : Provider → Except DataErr (Option (List RawBar))) (now : ℚ)
    (p : Provider) (st : ServiceState) (q : Provider) :
    StatStep (st.provider_stats q)
      ((tryCryptoHistProvider cfg fetch now p st).2.provider_stats q) := by
  by_cases hq : q = p
  · subst hq
    cases hcfg : cfg q with
    | false =>
      simp only [tryCryptoHistProvider, hcfg, Bool.false_eq_true, if_false]
      exact statStep_rfl _
    | true =>
      cases hf : fetch q with
      | error e =>
        simp only [tryCryptoHistProvider, hcfg, if_true, hf,
          updStats_stats_same]
        unfold StatStep
        simp
      | ok od =>
        cases od with
        | none =>
          simp only [tryCryptoHistProvider, hcfg, if_true, hf,
            updStats_stats_same]
          unfold StatStep
          simp
        | some v =>
          simp only [tryCryptoHistProvider, hcfg, if_true, hf,
            updStats_stats_same]
          unfold StatStep
          simp
          try omega
  · have hfr :
        (tryCryptoHistProvider cfg fetch now p st).2.provider_stats q =
          st.provider_stats q := by
      cases hcfg : cfg p with
      | false => simp [tryCryptoHistProvider, hcfg]
      | true =>
        cases hf : fetch p with
        | error e =>
          simp [tryCryptoHistProvider, hcfg, hf,
            updStats_stats_ne _ p q _ hq]
        | ok od =>
          cases od with
          | none =>
            simp [tryCryptoHistProvider, hcfg, hf,
              updStats_stats_ne _ p q _ hq]
          | some v =>
            simp [tryCryptoHistProvider, hcfg, hf,
              updStats_stats_ne _ p q _ hq]
    rw [hfr]
    exact statStep_rfl _

theorem getStockPriceGo_statStep (cfg : Provider → Bool)
    (fetch : Provider → Except DataErr (Option ℚ)) (now : ℚ) :
    ∀ (l : List Provider) (st : ServiceState) (q : Provider),
      StatStep (st.provider_stats q)
        ((getStockPriceGo cfg fetch now l st).2.provider_stats q) := by
  intro l
  induction l with
  | nil => intro st q; exact statStep_rfl _
  | cons p l ih =>
    intro st q
    cases htry : tryStockProvider cfg fetch now p st with
    | mk res st2 =>
      have h1 : StatStep (st.provider_stats q) (st2.provider_stats q) := by
        have h := tryStockProvider_statStep cfg fetch now p st q
        rwa [htry] at h
      cases res with
      | some v =>
        simp only [getStockPriceGo, htry]
        exact h1
      | none =>
        simp only [getStockPriceGo, htry]
        exact statStep_trans h1 (ih st2 q)

theorem getCryptoPriceGo_statStep (cfg : Provider → Bool)
    (fetch : Provider → Except DataErr (Option ℚ)) (now : ℚ) :
    ∀ (l : List Provider) (st : ServiceState) (q : Provider),
      StatStep (st.provider_stats q)
        ((getCryptoPriceGo cfg fetch now l st).2.provider_stats q) := by
  intro l
  induction l with
  | nil => intro st q; exact statStep_rfl _
  | cons p l ih =>
    intro st q
    cases htry : tryCryptoProvider cfg fetch now p st with
    | mk res st2 =>
      have h1 : StatStep (st.provider_stats q) (st2.provider_stats q) := by
        have h := tryCryptoProvider_statStep cfg fetch now p st q
        rwa [htry] at h
      cases res with
      | some v =>
        simp only [getCryptoPriceGo, htry]
        exact h1
      | none =>
        simp only [getCryptoPriceGo, htry]
        exact statStep_trans h1 (ih st2 q)

theorem getStockHistGo_statStep (cfg : Provider → Bool)
    (fetch : Provider → Except DataErr (List RawBar)) (now : ℚ) :
    ∀ (l : List Provider) (st : ServiceState) (q : Provider),
      StatStep (st.provider_stats q)
        ((getStockHistGo cfg fetch now l st).2.provider_stats q) := by
  intro l
  induction l with
  | nil => intro st q; exact statStep_rfl _
  | cons p l ih =>
    intro st q
    cases htry : tryHistProvider cfg fetch now p st with
    | mk res st2 =>
      have h1 : StatStep (st.provider_stats q) (st2.provider_stats q) := by
        have h := tryHistProvider_statStep cfg fetch now p st q
        rwa [htry] at h
      cases res with
      | some v =>
        simp only [getStockHistGo, htry]
        exact h1
      | none =>
        simp only [getStockHistGo, htry]
        exact statStep_trans h1 (ih st2 q)

theorem getCryptoHistGo_statStep (cfg : Provider → Bool)
    (fetch : Provider → Except DataErr (Option (List RawBar))) (now : ℚ) :
    ∀ (l : List Provider) (st : ServiceState) (q : Provider),
      StatStep (st.provider_stats q)
        ((getCryptoHistGo cfg fetch now l st).2.provider_stats q) := by
  intro l
  induction l with
  | nil => intro st q; exact statStep_rfl _
  | cons p l ih =>
    intro st q
    cases htry : tryCryptoHistProvider cfg fetch now p st with
    | mk res st2 =>
      have h1 : StatStep (st.provider_stats q) (st2.provider_stats q) := by
        have h := tryCryptoHistProvider_statStep cfg fetch now p st q
        rwa [htry] at h
      cases res with
      | some v =>
        simp only [getCryptoHistGo, htry]
        exact h1
      | none =>
        simp only [getCryptoHistGo, htry]
        exact statStep_trans h1 (ih st2 q)

/-- C10: over any sequence of get_price and get_historical_data calls on
one service instance, each call advances success_count + error_count by at
most the advance of request_count for every provider (a request is counted
before the adapter call and at most one of success or error after it), and
from the fresh instance the invariant success_count + error_count ≤
request_count holds for every provider at every point. -/
theorem C10_counter_invariant :
    (∀ (st : ServiceState) (op : ServiceOp) (p : Provider),
      StatStep (st.provider_stats p)
        ((ServiceOp.apply st op).provider_stats p)) ∧
    (∀ (ops : List ServiceOp) (p : Provider),
      ((runServiceOps ops).provider_stats p).CounterOk) := by
  have hstep : ∀ (st : ServiceState) (op : ServiceOp) (p : Provider),
      StatStep (st.provider_stats p)
        ((ServiceOp.apply st op).provider_stats p) := by
    intro st op p
    cases op with
    | price symbol cfg fetch now =>
      cases hc : is_crypto symbol with
      | false =>
        simp only [ServiceOp.apply, hc, Bool.false_eq_true, if_false]
        exact getStockPriceGo_statStep cfg fetch now stockPriceOrder st p
      | true =>
        simp only [ServiceOp.apply, hc, if_true]
        exact getCryptoPriceGo_statStep cfg fetch now cryptoPriceOrder st p
    | historical symbol cfg fetch cfetch now =>
      cases hc : is_crypto symbol with
      | false =>
        simp only [ServiceOp.apply, hc, Bool.false_eq_true, if_false]
        exact getStockHistGo_statStep cfg fetch now stockHistOrder st p
      | true =>
        simp only [ServiceOp.apply, hc, if_true]
        exact getCryptoHistGo_statStep cfg cfetch now cryptoHistOrder st p
  refine ⟨hstep, ?_⟩
  have hrun : ∀ (ops : List ServiceOp) (st : ServiceState),
      (∀ p, (st.provider_stats p).CounterOk) →
      ∀ p, ((ops.foldl ServiceOp.apply st).provider_stats p).CounterOk := by
    intro ops
    induction ops with
    | nil => intro st h p; exact h p
    | cons op ops ih =>
      intro st h p
      exact ih (ServiceOp.apply st op)
        (fun p' => statStep_counterOk (h p') (hstep st op p')) p
  intro ops p
  exact hrun ops ServiceState.init
    (fun p' => by simp [ServiceState.init, ProviderStats.CounterOk]) p
